import Mathlib

/-! # Fyrtur motor board: `Core/Src/motor.c`

A shallow embedding of the motor control module (location model, hall tick
processing, stall detection, speed regulation, motor state machine and the
command handler) together with theorems about it.

Conventions of the embedding

* `uint8_t`, `uint16_t`, `uint32_t` values are natural numbers; every operation
  that can leave the range reduces modulo `2 ^ 8`, `2 ^ 16` or `2 ^ 32`.
* `int32_t location` is an integer; arithmetic on it wraps to the two's
  complement range (`wrap32`), and a conversion to `uint32_t` is `u32`.
* `float` values are rationals; every floating point operation rounds its exact
  result to binary32 precision (`f32`, round to nearest, ties to even).
* An integer division by zero has no defined result: functions that can reach
  one return an `Option`.
* The header `motor.h` is not part of the sources. Its constants are the fields
  of `Board`; the three enumerations are the inductive types below; the
  external calls `HAL_GetTick`, `get_voltage` and `get_motor_current` are
  arguments of the functions that make them; `pwm_start`, `pwm_stop`,
  `HAL_GPIO_WritePin` and the two compare registers are fields of the state.
-/

namespace Fyrtur

/-! ## Types of `motor.h` -/

/-- The enumeration `motor_status`. -/
inductive motor_status where
  | Stopped
  | Moving
  deriving DecidableEq

/-- The enumeration `motor_direction`. -/
inductive motor_direction where
  | None
  | Up
  | Down
  deriving DecidableEq

/-- The enumeration `motor_command`. -/
inductive motor_command where
  | NoCommand
  | MotorUp
  | MotorDown
  | Stop
  deriving DecidableEq

open motor_status motor_direction motor_command

/-- Modelled from the spec: the numbering of the enumerators of `motor_status`
(`motor.h` is not among the sources), in the order in which the spec lists
them. Used only for the status byte of the extended status reply. -/
def motor_status.toNat : motor_status → Nat
  | Stopped => 0
  | Moving => 1

/-- The constants that `motor.c` takes from its headers. -/
structure Board where
  HALL_1_SENSOR : Nat
  HALL_2_SENSOR : Nat
  MOVEMENT_GRACE_PERIOD : Nat
  HALL_TIMEOUT : Nat
  DEFAULT_TARGET_SPEED : Nat
  deriving DecidableEq

/-- The global variables of `motor.c` and the hardware outputs it drives. -/
structure State where
  status : motor_status
  direction : motor_direction
  target_location : Nat
  location : Int
  hard_lower_limit : Nat
  soft_lower_limit : Nat
  default_speed : Nat
  target_speed : Nat
  curr_pwm : Nat
  resetting : Nat
  hall_idle_time : Nat
  hall_interval : Nat
  movement_started_timestamp : Nat
  command : motor_command
  /-- Is `true` while the PWM output of `LOW1_PWM_CHANNEL` runs. -/
  low1_pwm : Bool
  /-- Is `true` while the PWM output of `LOW2_PWM_CHANNEL` runs. -/
  low2_pwm : Bool
  /-- Is `true` while the pin `HIGH_1_GATE` is set. -/
  high1_gate : Bool
  /-- Is `true` while the pin `HIGH_2_GATE` is set. -/
  high2_gate : Bool
  /-- The compare register `TIM1->CCR1`. -/
  CCR1 : Nat
  /-- The compare register `TIM1->CCR4`. -/
  CCR4 : Nat
  deriving DecidableEq

/-! ## Machine arithmetic -/

/-- The constant `GEAR_RATIO`. -/
def GEAR_RATIO : Nat := 189

/-- The expansion of `DEG_TO_LOCATION(x)`, that is `(GEAR_RATIO * x / 360)` in `int` arithmetic. -/
def DEG_TO_LOCATION (x : Nat) : Nat := GEAR_RATIO * x / 360

/-- The constant `INITIAL_PWM`. -/
def INITIAL_PWM : Nat := 80

/-- Reduction of an integer to the range of `int32_t`. -/
def wrap32 (x : Int) : Int := (x + 2 ^ 31) % 2 ^ 32 - 2 ^ 31

/-- Conversion of an integer to `uint32_t`. -/
def u32 (x : Int) : Nat := (x % 2 ^ 32).toNat

/-- Round to the nearest integer, ties to the even one. -/
def roundHalfEven (x : ℚ) : ℤ :=
  let f := ⌊x⌋
  let r := x - f
  if r < 1 / 2 then f
  else if 1 / 2 < r then f + 1
  else if f % 2 = 0 then f else f + 1

/-- Rounding of an exact result to binary32: 24 significant bits, round to
nearest, ties to even (the exponent range is not limited; every value the
module computes lies far inside the normal range). -/
def f32 (x : ℚ) : ℚ :=
  if x = 0 then 0
  else
    let e : ℤ := Int.log 2 |x| - 23
    (roundHalfEven (x / (2 : ℚ) ^ e) : ℚ) * (2 : ℚ) ^ e

/-- Truncation of a `float` toward zero. -/
def truncQ (x : ℚ) : ℤ := if 0 ≤ x then ⌊x⌋ else ⌈x⌉

/-- Conversion of a `float` to `uint32_t` (low 32 bits of the integer part). -/
def f2u32 (x : ℚ) : Nat := (truncQ x % 2 ^ 32).toNat

/-- Conversion of a `float` to `uint16_t` (low 16 bits of the integer part). -/
def f2u16 (x : ℚ) : Nat := (truncQ x % 2 ^ 16).toNat

/-- Conversion of a `float` to `uint8_t` (low 8 bits of the integer part). -/
def f2u8 (x : ℚ) : Nat := (truncQ x % 2 ^ 8).toNat

/-! ## Location model -/

/-- Function `position100_to_location`, lines 83-87. -/
def position100_to_location (s : State) (position : ℚ) : Nat :=
  if position > 100 then 100
  else f2u32 (f32 (f32 (position * f32 (s.soft_lower_limit : ℚ)) / 100))

/-- Function `location_to_position100`, lines 90-102. The product `100*location` is an
`int`, converted to `uint32_t` for the division by `soft_lower_limit`; the
quotient is converted to `float`. There is no result when the divisor is 0. -/
def location_to_position100 (s : State) : Option ℚ :=
  if s.resetting ≠ 0 then some 50
  else if s.location < 0 then some 0
  else if u32 s.location > s.soft_lower_limit then some 100
  else if s.soft_lower_limit = 0 then none
  else some (f32 ((u32 (wrap32 (100 * s.location)) / s.soft_lower_limit : Nat) : ℚ))

/-- Function `get_rpm`, lines 105-109. The quotient is an unsigned integer division;
its result is converted to `float`. -/
def get_rpm (s : State) : ℚ :=
  if s.hall_interval ≠ 0 then f32 ((60 * 1000 / GEAR_RATIO / s.hall_interval : Nat) : ℚ)
  else 0

/-! ## Motor state machine -/

/-- Function `motor_stop`, lines 203-219. -/
def motor_stop (s : State) : State :=
  { s with
    low1_pwm := false
    low2_pwm := false
    high1_gate := false
    high2_gate := false
    CCR1 := 0
    CCR4 := 0
    status := Stopped
    direction := motor_direction.None
    curr_pwm := 0
    hall_interval := 0
    target_speed := 0 }

/-- Function `process_location`, lines 112-125. Both comparisons are between
`int32_t location` and `uint32_t target_location`, so `location` is converted
to `uint32_t`. -/
def process_location (s : State) : State :=
  if s.direction = Up then
    let s1 := { s with location := wrap32 (s.location - 1) }
    if u32 s1.location ≤ s1.target_location then motor_stop s1 else s1
  else if s.direction = Down then
    let s1 := { s with location := wrap32 (s.location + 1) }
    if u32 s1.location ≥ s1.target_location then motor_stop s1 else s1
  else s

/-- Function `hall_sensor_callback`, lines 127-136. -/
def hall_sensor_callback (b : Board) (sensor : Nat) (s : State) : State :=
  if sensor = b.HALL_1_SENSOR then
    let s1 := { s with hall_interval := s.hall_idle_time }
    let s2 := { s1 with hall_idle_time := 0 }
    if s2.resetting = 0 then process_location s2 else s2
  else if sensor = b.HALL_2_SENSOR then s
  else s

/-- Function `motor_adjust_rpm`, lines 139-160. -/
def motor_adjust_rpm (s : State) : State :=
  let speed := f2u32 (get_rpm s)
  let s1 :=
    if speed < s.target_speed then
      if s.curr_pwm < 255 then
        let t := { s with curr_pwm := s.curr_pwm + 1 }
        if t.direction = Up then { t with CCR4 := t.curr_pwm }
        else { t with CCR1 := t.curr_pwm }
      else s
    else s
  if speed > s1.target_speed then
    if s1.curr_pwm > 0 then
      let t := { s1 with curr_pwm := s1.curr_pwm - 1 }
      if t.direction = Up then { t with CCR4 := t.curr_pwm }
      else { t with CCR1 := t.curr_pwm }
    else s1
  else s1

/-- Function `motor_stopped`, lines 183-200. -/
def motor_stopped (s : State) : State :=
  if s.status ≠ Stopped then
    let s1 := { s with hall_interval := 0 }
    let s2 := if s1.resetting ≠ 0 then { s1 with resetting := 0 } else s1
    let s3 := { s2 with location := 0 }
    let s4 := motor_stop s3
    { s4 with hall_idle_time := 0 }
  else s

/-- Function `motor_stall_check`, lines 166-181; `tick` is the value that
`HAL_GetTick()` returns. -/
def motor_stall_check (b : Board) (tick : Nat) (s : State) : State :=
  if s.status = Moving then
    let s1 := { s with hall_idle_time := (s.hall_idle_time + 1) % 2 ^ 32 }
    if (tick + 2 ^ 32 - s1.movement_started_timestamp % 2 ^ 32) % 2 ^ 32
        > b.MOVEMENT_GRACE_PERIOD then
      if s1.hall_idle_time > b.HALL_TIMEOUT then
        let s2 := motor_stopped s1
        { s2 with hall_idle_time := 0 }
      else s1
    else s1
  else s

/-- Function `motor_up`, lines 223-238; `tick` is the value that `HAL_GetTick()`
returns. -/
def motor_up (tick : Nat) (motor_speed : Nat) (s : State) : State :=
  let s1 := { s with hall_idle_time := 0 }
  let s2 := { s1 with movement_started_timestamp := tick % 2 ^ 32 }
  let s3 := motor_stop s2
  { s3 with
    low2_pwm := true
    target_speed := motor_speed % 2 ^ 8
    CCR4 := INITIAL_PWM
    curr_pwm := INITIAL_PWM
    high1_gate := true
    direction := Up
    status := Moving }

/-- Function `motor_down`, lines 240-256; `tick` is the value that
`HAL_GetTick()` returns. -/
def motor_down (tick : Nat) (motor_speed : Nat) (s : State) : State :=
  let s1 := { s with hall_idle_time := 0 }
  let s2 := { s1 with movement_started_timestamp := tick % 2 ^ 32 }
  let s3 := motor_stop s2
  { s3 with
    low1_pwm := true
    target_speed := motor_speed % 2 ^ 8
    CCR1 := INITIAL_PWM
    curr_pwm := INITIAL_PWM
    high2_gate := true
    direction := Down
    status := Moving }

/-- Function `motor_process`, lines 259-270. -/
def motor_process (tick : Nat) (s : State) : State :=
  if s.command = MotorUp then
    { motor_up tick s.default_speed s with command := NoCommand }
  else if s.command = MotorDown then
    { motor_down tick s.default_speed s with command := NoCommand }
  else if s.command = Stop then
    { motor_stop s with command := NoCommand }
  else s

/-- Function `calculate_battery`, lines 273-275. -/
def calculate_battery : Nat := 0x12

/-! ## Command handler -/

/-- Store of one byte into a `uint8_t` buffer. -/
def write (buf : Nat → Nat) (i v : Nat) : Nat → Nat :=
  fun j => if j = i then v % 2 ^ 8 else buf j

/-- What `handle_command` leaves behind: the globals, the transmit buffer, the
byte count `*tx_bytes` and the return value. -/
structure CmdResult where
  state : State
  tx_buffer : Nat → Nat
  tx_bytes : Nat
  ret : Nat

/-- The reply of `CMD_GET_STATUS`, lines 288-300; `voltage` is the value that
`get_voltage()` returns and `pos` the value of `location_to_position100()`. -/
def status_reply (voltage : Nat) (s : State) (pos : ℚ) (tx_buffer : Nat → Nat) : Nat → Nat :=
  let t0 := write tx_buffer 0 0x00
  let t1 := write t0 1 0xff
  let t2 := write t1 2 0xd8
  let t3 := write t2 3 calculate_battery
  let t4 := write t3 4 (voltage / 16)
  let t5 := write t4 5 (f2u8 (get_rpm s))
  let t6 := write t5 6 (f2u8 pos)
  write t6 7 (t6 3 ^^^ t6 4 ^^^ t6 5 ^^^ t6 6)

/-- The reply of `CMD_GET_EXT_STATUS`, lines 387-400; `current` is the value that
`get_motor_current()` returns and `p` the value of `location_to_position100()`. -/
def ext_status_reply (current : Nat) (s : State) (p : ℚ) (tx_buffer : Nat → Nat) : Nat → Nat :=
  let t0 := write tx_buffer 0 0x00
  let t1 := write t0 1 0xff
  let t2 := write t1 2 0xda
  let t3 := write t2 3 s.status.toNat
  let t4 := write t3 4 current
  let pos := f2u16 (f32 (p * 256))
  let t5 := write t4 5 (pos >>> 8)
  let t6 := write t5 6 (pos &&& 0xff)
  write t6 7 (t6 3 ^^^ t6 4 ^^^ t6 5 ^^^ t6 6)

/-- The reply of `CMD_GET_EXT_LIMITS`, lines 402-415. -/
def ext_limits_reply (s : State) (tx_buffer : Nat → Nat) : Nat → Nat :=
  let t0 := write tx_buffer 0 0x00
  let t1 := write t0 1 0xff
  let t2 := write t1 2 0xdb
  let t3 := write t2 3 s.resetting
  let t4 := write t3 4 (s.soft_lower_limit >>> 8)
  let t5 := write t4 5 (s.soft_lower_limit &&& 0xff)
  let t6 := write t5 6 (s.hard_lower_limit >>> 8)
  let t7 := write t6 7 (s.hard_lower_limit &&& 0xff)
  write t7 8 (t7 3 ^^^ t7 4 ^^^ t7 5 ^^^ t7 6 ^^^ t7 7)

/-- The case `CMD_UP` of the `switch`, lines 302-307. -/
def cmd_up (s : State) : State :=
  let s1 := { s with target_location := 0 }
  { s1 with command := MotorUp }

/-- The case `CMD_DOWN` of the `switch`, lines 309-314. -/
def cmd_down (s : State) : State :=
  let s1 := { s with target_location := s.soft_lower_limit }
  { s1 with command := MotorDown }

/-- The case `CMD_UP_17` of the `switch`, lines 316-323. The subtraction is in
`uint32_t`; the test `target_location < 0` compares an unsigned value. -/
def cmd_up_17 (s : State) : State :=
  let t : Nat := (s.target_location + 2 ^ 32 - DEG_TO_LOCATION 17) % 2 ^ 32
  let t1 : Nat := if t < 0 then 0 else t
  let s1 := { s with target_location := t1 }
  { s1 with command := MotorUp }

/-- The case `CMD_DOWN_17` of the `switch`, lines 325-332. -/
def cmd_down_17 (s : State) : State :=
  let t : Nat := (s.target_location + DEG_TO_LOCATION 17) % 2 ^ 32
  let t1 : Nat := if t > s.soft_lower_limit then s.soft_lower_limit else t
  let s1 := { s with target_location := t1 }
  { s1 with command := MotorDown }

/-- The case `CMD_STOP` of the `switch`, lines 334-338. -/
def cmd_stop (s : State) : State :=
  { s with command := Stop }

/-- The cases `CMD_OVERRIDE_UP_90` and `CMD_OVERRIDE_UP_6` of the `switch`, lines
340-345 and 354-359, for `deg` = 90 and 6. -/
def cmd_override_up (deg : Nat) (s : State) : State :=
  let s1 := { s with target_location := (s.target_location + 2 ^ 32 - DEG_TO_LOCATION deg) % 2 ^ 32 }
  { s1 with command := MotorUp }

/-- The cases `CMD_OVERRIDE_DOWN_90` and `CMD_OVERRIDE_DOWN_6` of the `switch`,
lines 347-352 and 361-366, for `deg` = 90 and 6. -/
def cmd_override_down (deg : Nat) (s : State) : State :=
  let s1 := { s with target_location := (s.target_location + DEG_TO_LOCATION deg) % 2 ^ 32 }
  { s1 with command := MotorDown }

/-- The case `CMD_SET_SOFT_LIMIT` of the `switch`, lines 368-372. -/
def cmd_set_soft_limit (s : State) : State :=
  { s with soft_lower_limit := u32 s.location }

/-- The case `CMD_SET_HARD_LIMIT` of the `switch`, lines 374-378. -/
def cmd_set_hard_limit (s : State) : State :=
  { s with hard_lower_limit := u32 s.location }

/-- The case `CMD_RESET_SOFT_LIMIT` of the `switch`, lines 380-385. -/
def cmd_reset_soft_limit (s : State) : State :=
  let s1 := { s with soft_lower_limit := s.hard_lower_limit }
  { s1 with resetting := 1 }

/-- The branch `CMD_SET_SPEED` of the one byte commands, lines 423-426. -/
def cmd_set_speed (cmd2 : Nat) (s : State) : State :=
  let s1 := { s with default_speed := cmd2 }
  if s1.target_speed ≠ 0 then { s1 with target_speed := cmd2 } else s1

/-- The common tail of `CMD_GO_TO` and `CMD_EXT_GO_TO`, lines 429-434 and
438-443: store the target and choose the direction. The comparison is between
`uint32_t target_location` and `int32_t location`, so `location` is converted
to `uint32_t`. -/
def go_to (position : ℚ) (s : State) : State :=
  let s1 := { s with target_location := position100_to_location s position }
  if s1.target_location < u32 s1.location then { s1 with command := MotorUp }
  else { s1 with command := MotorDown }

/-- The part of `handle_command` after the `switch`, lines 421-445: the one byte
commands with a parameter. -/
def one_byte_command (cmd1 cmd2 : Nat) (s : State) : State :=
  if cmd1 = 0x20 then cmd_set_speed cmd2 s
  else if cmd1 = 0xdd then go_to (f32 (cmd2 : ℚ)) s
  else if cmd1 &&& 0xf0 = 0x10 then
    let pos : Nat := (((cmd1 &&& 0x0f) <<< 8) + cmd2) % 2 ^ 16
    let pos2 : ℚ := f32 (f32 (pos : ℚ) / 16)
    go_to pos2 s
  else s

/-- The `switch` of `handle_command` and what follows it, lines 286-447, for the
command bytes `cmd1`, `cmd2` and the 16 bit command `cmd`. -/
def dispatch (voltage current : Nat) (s : State) (cmd1 cmd2 cmd : Nat)
    (tx_buffer : Nat → Nat) (tx_bytes : Nat) : Option CmdResult :=
  if cmd = 0xcccc then
    match location_to_position100 s with
    | none => none
    | some p => some ⟨s, status_reply voltage s p tx_buffer, 8, 1⟩
  else if cmd = 0x0add then some ⟨cmd_up s, tx_buffer, tx_bytes, 1⟩
  else if cmd = 0x0aee then some ⟨cmd_down s, tx_buffer, tx_bytes, 1⟩
  else if cmd = 0x0a0d then some ⟨cmd_up_17 s, tx_buffer, tx_bytes, 1⟩
  else if cmd = 0x0a0e then some ⟨cmd_down_17 s, tx_buffer, tx_bytes, 1⟩
  else if cmd = 0x0acc then some ⟨cmd_stop s, tx_buffer, tx_bytes, 1⟩
  else if cmd = 0xfad1 then some ⟨cmd_override_up 90 s, tx_buffer, tx_bytes, 1⟩
  else if cmd = 0xfad2 then some ⟨cmd_override_down 90 s, tx_buffer, tx_bytes, 1⟩
  else if cmd = 0xfad3 then some ⟨cmd_override_up 6 s, tx_buffer, tx_bytes, 1⟩
  else if cmd = 0xfad4 then some ⟨cmd_override_down 6 s, tx_buffer, tx_bytes, 1⟩
  else if cmd = 0xfaee then some ⟨cmd_set_soft_limit s, tx_buffer, tx_bytes, 1⟩
  else if cmd = 0xfacc then some ⟨cmd_set_hard_limit s, tx_buffer, tx_bytes, 1⟩
  else if cmd = 0xfa00 then some ⟨cmd_reset_soft_limit s, tx_buffer, tx_bytes, 1⟩
  else if cmd = 0xccde then
    match location_to_position100 s with
    | none => none
    | some p => some ⟨s, ext_status_reply current s p tx_buffer, 8, 1⟩
  else if cmd = 0xccdf then some ⟨s, ext_limits_reply s tx_buffer, 9, 1⟩
  else some ⟨one_byte_command cmd1 cmd2 s, tx_buffer, tx_bytes, 1⟩

set_option linter.unusedVariables false in
/-- Function `handle_command`, lines 278-448. Only the bytes 3 and 4 of `rx_buffer`
are read; `voltage` and `current` are the values that `get_voltage()` and
`get_motor_current()` return. There is no result when
`location_to_position100` divides by zero. -/
def handle_command (voltage current : Nat) (s : State) (rx_buffer tx_buffer : Nat → Nat)
    (burstindex : Nat) (tx_bytes : Nat) : Option CmdResult :=
  let cmd1 := rx_buffer 3 % 2 ^ 8
  let cmd2 := rx_buffer 4 % 2 ^ 8
  let cmd := ((cmd1 <<< 8) + cmd2) % 2 ^ 16
  dispatch voltage current s cmd1 cmd2 cmd tx_buffer tx_bytes

/-! ## Start-up -/

/-- The value of the initialiser `GEAR_RATIO * (13 + 265.0/360)` of
`hard_lower_limit` (line 30) after its conversion to `uint32_t`: the integer
part of 2596.125. -/
def HARD_LOWER_LIMIT_INIT : Nat := 2596

/-- The globals as their initialisers leave them, before `motor_init` runs. The
three enumeration variables and `soft_lower_limit` have no initialiser and
start at zero; `motor_init` assigns all of them. -/
def boot (b : Board) : State :=
  { status := Stopped
    direction := motor_direction.None
    target_location := 0
    location := 0
    hard_lower_limit := HARD_LOWER_LIMIT_INIT
    soft_lower_limit := 0
    default_speed := b.DEFAULT_TARGET_SPEED % 2 ^ 8
    target_speed := 0
    curr_pwm := 0
    resetting := 0
    hall_idle_time := 0
    hall_interval := 0
    movement_started_timestamp := 0
    command := NoCommand
    low1_pwm := false
    low2_pwm := false
    high1_gate := false
    high2_gate := false
    CCR1 := 0
    CCR4 := 0 }

/-- Function `motor_init`, lines 450-462 (`AUTO_RESET` is not defined). -/
def motor_init (s : State) : State :=
  let s1 := { s with resetting := 0 }
  let s2 := { s1 with direction := motor_direction.None }
  let s3 := { s2 with command := NoCommand }
  let s4 := { s3 with soft_lower_limit := s3.hard_lower_limit }
  motor_stop s4

/-- A receive buffer that carries the command bytes `cmd1`, `cmd2` at the
offsets 3 and 4. -/
def frame (cmd1 cmd2 : Nat) : Nat → Nat :=
  fun i => if i = 3 then cmd1 else if i = 4 then cmd2 else 0

/-- The case labels of the `switch` in `handle_command`, lines 288-402. -/
def handled_commands : List Nat :=
  [0xcccc, 0x0add, 0x0aee, 0x0a0d, 0x0a0e, 0x0acc, 0xfad1, 0xfad2, 0xfad3, 0xfad4,
    0xfaee, 0xfacc, 0xfa00, 0xccde, 0xccdf]

/-! ## Scenarios -/

/-- A board configuration for the concrete scenarios. -/
def sample_board : Board :=
  { HALL_1_SENSOR := 1
    HALL_2_SENSOR := 2
    MOVEMENT_GRACE_PERIOD := 500
    HALL_TIMEOUT := 300
    DEFAULT_TARGET_SPEED := 18 }

/-- The primary hall tick, repeated `k` times. -/
def ticks (b : Board) (k : Nat) (s : State) : State :=
  (hall_sensor_callback b b.HALL_1_SENSOR)^[k] s

/-- The globals after `handle_command` has decoded the frame with the command
bytes `cmd1`, `cmd2` (unchanged when the handler has no result). -/
def after_command (s : State) (cmd1 cmd2 : Nat) : State :=
  match handle_command 0 0 s (frame cmd1 cmd2) (fun _ => 0) 0 0 with
  | some r => r.state
  | none => s

/-- The state after start-up. -/
def started : State := motor_init (boot sample_board)

/-- Reached by `motor_init`, `CMD_OVERRIDE_UP_6`, `motor_process` and three hall
ticks: the curtain stands three revolutions above the top position. -/
def above_top_state : State :=
  ticks sample_board 3 (motor_process 0 (after_command started 0xfa 0xd3))

/-- Reached by `motor_init`, `CMD_SET_SPEED` with parameter 0, `CMD_UP` and
`motor_process`: the motor runs with a set-point of zero. -/
def moving_at_speed_zero : State :=
  motor_process 0 (after_command (after_command started 0x20 0x00) 0x0a 0xdd)

/-- Reached by `motor_init` and `CMD_SET_SOFT_LIMIT` at location 0: the soft
limit is zero. -/
def zero_limit_state : State := after_command started 0xfa 0xee

/-- Reached by `motor_init`, `CMD_UP` and `motor_process`: the motor runs up from
the top position, with the target at the top position. -/
def up_at_top_state : State := motor_process 0 (after_command started 0x0a 0xdd)

/-- Reached by `motor_init`, `CMD_DOWN` and `motor_process`: the motor runs down
from the top position toward the soft limit. -/
def down_from_top_state : State := motor_process 0 (after_command started 0x0a 0xee)

/-- A motor on its way up from location 200 to the target 190. -/
def up_run_state : State := { up_at_top_state with location := 200, target_location := 190 }

/-- A motor on its way down from location 190 to the target 200. -/
def down_run_state : State := { down_from_top_state with location := 190, target_location := 200 }

/-- The state after start-up, with the curtain at location 1000. -/
def mid_state : State := { started with location := 1000 }

/-- The state after start-up, with the soft limit 42949673 and the curtain at
location `L`: the product `100 * L` leaves the 32 bit range at `L = 42949673`. -/
def far_state (L : Int) : State := { started with soft_lower_limit := 42949673, location := L }

/-- The state after `CMD_RESET_SOFT_LIMIT`: the module is resetting. -/
def resetting_state : State := after_command started 0xfa 0x00

/-- A resetting module with a soft limit of zero and the curtain at location 99999. -/
def resetting_far_state : State :=
  { resetting_state with soft_lower_limit := 0, location := 99999 }

/-- The calls of `motor_stall_check` in the `k` milliseconds after the tick `t0`,
one per millisecond as `SysTick_Handler` makes them, with no hall tick and no
command in between. -/
def stall_checks (b : Board) (t0 : Nat) : Nat → State → State
  | 0, s => s
  | k + 1, s => motor_stall_check b (t0 + (k + 1)) (stall_checks b t0 k s)

/-- A motor on its way up, not resetting, that has not seen a hall tick for 300 ms. -/
def stalled_state : State := { up_run_state with hall_idle_time := 300 }

/-! ## Reachable states and invariants -/

/-- The states that the module can be in: those that `motor_init` leaves and
those that any of its entry points produces from such a state, with any
arguments and any values returned by the external calls. -/
inductive Reachable (b : Board) : State → Prop where
  | init (s0 : State) : Reachable b (motor_init s0)
  | process (tick : Nat) {s : State} : Reachable b s → Reachable b (motor_process tick s)
  | command (voltage current : Nat) (rx tx : Nat → Nat) (burstindex tx_bytes : Nat)
      {s : State} {r : CmdResult} :
      Reachable b s → handle_command voltage current s rx tx burstindex tx_bytes = some r →
      Reachable b r.state
  | hall (sensor : Nat) {s : State} : Reachable b s → Reachable b (hall_sensor_callback b sensor s)
  | stall (tick : Nat) {s : State} : Reachable b s → Reachable b (motor_stall_check b tick s)
  | adjust {s : State} : Reachable b s → Reachable b (motor_adjust_rpm s)
  | stop {s : State} : Reachable b s → Reachable b (motor_stop s)
  | up (tick motor_speed : Nat) {s : State} : Reachable b s → Reachable b (motor_up tick motor_speed s)
  | down (tick motor_speed : Nat) {s : State} :
      Reachable b s → Reachable b (motor_down tick motor_speed s)

/-- The variables and outputs of `s` that a command handler must leave as they
are in order to stay out of the motor control: the state `t` agrees with `s` on
every one of them, and a set-point of zero stays zero. -/
def KeepsMotor (s t : State) : Prop :=
  t.location = s.location ∧ t.direction = s.direction ∧ t.status = s.status ∧
  t.curr_pwm = s.curr_pwm ∧ t.hall_interval = s.hall_interval ∧
  t.hall_idle_time = s.hall_idle_time ∧
  t.movement_started_timestamp = s.movement_started_timestamp ∧
  t.low1_pwm = s.low1_pwm ∧ t.low2_pwm = s.low2_pwm ∧
  t.high1_gate = s.high1_gate ∧ t.high2_gate = s.high2_gate ∧
  t.CCR1 = s.CCR1 ∧ t.CCR4 = s.CCR4 ∧
  (s.target_speed = 0 → t.target_speed = 0)

instance (s t : State) : Decidable (KeepsMotor s t) := by
  unfold KeepsMotor; infer_instance

/-- A result of `handle_command`, when there is one, keeps the motor control of
`s` and carries the return value 1. -/
def KeepsDrive (s : State) (o : Option CmdResult) : Prop :=
  ∀ r, o = some r → KeepsMotor s r.state ∧ r.ret = 1

/-- The property of a state that `motor_stop` establishes. -/
def StoppedIsIdle (s : State) : Prop :=
  s.status = Stopped → s.direction = motor_direction.None ∧ s.curr_pwm = 0 ∧ s.target_speed = 0

instance (s : State) : Decidable (StoppedIsIdle s) := by
  unfold StoppedIsIdle; infer_instance

/-- At most one side of the H-bridge is energised, and it is the side of the
direction of movement. -/
def HBridge (s : State) : Prop :=
  (s.direction = Up →
    s.low2_pwm = true ∧ s.high1_gate = true ∧ s.low1_pwm = false ∧ s.high2_gate = false ∧
    s.CCR4 = s.curr_pwm ∧ s.CCR1 = 0) ∧
  (s.direction = Down →
    s.low1_pwm = true ∧ s.high2_gate = true ∧ s.low2_pwm = false ∧ s.high1_gate = false ∧
    s.CCR1 = s.curr_pwm ∧ s.CCR4 = 0) ∧
  (s.direction = motor_direction.None →
    s.low1_pwm = false ∧ s.low2_pwm = false ∧ s.high1_gate = false ∧ s.high2_gate = false ∧
    s.CCR1 = 0 ∧ s.CCR4 = 0)

instance (s : State) : Decidable (HBridge s) := by
  unfold HBridge; infer_instance

/-- The invariant behind `HBridge`: without a direction of movement the duty and
the set-point are zero, so that `motor_adjust_rpm` writes no compare register. -/
def DriveInv (s : State) : Prop :=
  HBridge s ∧ (s.direction = motor_direction.None → s.curr_pwm = 0 ∧ s.target_speed = 0)

instance (s : State) : Decidable (DriveInv s) := by
  unfold DriveInv; infer_instance

/-! ## Binary32 rounding: where it is exact -/

theorem roundHalfEven_intCast (z : ℤ) : roundHalfEven (z : ℚ) = z := by
  simp [roundHalfEven]

theorem roundHalfEven_err (x : ℚ) : |(roundHalfEven x : ℚ) - x| ≤ 1 / 2 := by
  have h1 := Int.floor_le x
  have h2 := Int.lt_floor_add_one x
  unfold roundHalfEven
  simp only
  split_ifs with a b c
  · rw [abs_le]; constructor <;> linarith
  · rw [abs_le]; push_cast; constructor <;> linarith
  · rw [abs_le]; constructor <;> linarith
  · rw [abs_le]; push_cast; constructor <;> linarith

theorem f32_zero : f32 0 = 0 := by simp [f32]

theorem f32_natCast (n : ℕ) (h : n < 2 ^ 24) : f32 (n : ℚ) = n := by
  unfold f32
  split_ifs with h0
  · exact h0.symm
  · have hn : n ≠ 0 := by exact_mod_cast h0
    have hlog : Nat.log 2 n < 24 := Nat.log_lt_of_lt_pow hn h
    simp only [Nat.abs_cast, Int.log_natCast]
    obtain ⟨k, hk⟩ : ∃ k : ℕ, (Nat.log 2 n : ℤ) - 23 = -(k : ℤ) := ⟨23 - Nat.log 2 n, by omega⟩
    rw [hk, zpow_neg, zpow_natCast, div_inv_eq_mul]
    have : ((n : ℚ) * 2 ^ k) = (((n * 2 ^ k : ℕ) : ℤ) : ℚ) := by push_cast; ring
    rw [this, roundHalfEven_intCast]
    push_cast
    field_simp

theorem f32_err (x : ℚ) (hx : 0 < x) (k : ℤ) (hk : x < (2 : ℚ) ^ (k + 1)) :
    |f32 x - x| ≤ (2 : ℚ) ^ (k - 24) := by
  unfold f32
  rw [if_neg hx.ne']
  simp only
  rw [abs_of_pos hx]
  have hlog : Int.log 2 x ≤ k := by
    by_contra hc
    push_neg at hc
    have h1 : (2 : ℚ) ^ (k + 1) ≤ (2 : ℚ) ^ (Int.log 2 x) :=
      zpow_le_zpow_right₀ (by norm_num) (by omega)
    have h2 := Int.zpow_log_le_self (b := 2) (by norm_num) hx
    push_cast at h2
    linarith
  set e : ℤ := Int.log 2 x - 23 with he
  have hpos : (0 : ℚ) < 2 ^ e := by positivity
  have herr := roundHalfEven_err (x / 2 ^ e)
  have : (roundHalfEven (x / 2 ^ e) : ℚ) * 2 ^ e - x
      = ((roundHalfEven (x / 2 ^ e) : ℚ) - x / 2 ^ e) * 2 ^ e := by
    field_simp
  rw [this, abs_mul, abs_of_pos hpos]
  have h3 : (2 : ℚ) ^ e ≤ 2 ^ (k - 23) := zpow_le_zpow_right₀ (by norm_num) (by omega)
  have h4 : (2 : ℚ) ^ (k - 23) = 2 * 2 ^ (k - 24) := by
    rw [show k - 23 = (k - 24) + 1 by ring, zpow_add_one₀ (by norm_num)]; ring
  calc |(roundHalfEven (x / 2 ^ e) : ℚ) - x / 2 ^ e| * 2 ^ e
      ≤ (1 / 2) * 2 ^ e := by gcongr
    _ ≤ (1 / 2) * (2 * 2 ^ (k - 24)) := by rw [← h4]; gcongr
    _ = 2 ^ (k - 24) := by ring

theorem f32_div100 (n : ℕ) (h : n < 2 ^ 24) :
    ((n / 100 : ℕ) : ℚ) ≤ f32 ((n : ℚ) / 100) ∧ f32 ((n : ℚ) / 100) < ((n / 100 : ℕ) : ℚ) + 1 := by
  have hdm := Nat.div_add_mod n 100
  have hmod := Nat.mod_lt n (show 100 > 0 by norm_num)
  by_cases hr : n % 100 = 0
  · have hx : (n : ℚ) / 100 = ((n / 100 : ℕ) : ℚ) := by
      have : (n : ℚ) = 100 * ((n / 100 : ℕ) : ℚ) := by
        have : n = 100 * (n / 100) := by omega
        exact_mod_cast this
      rw [this]; field_simp
    rw [hx, f32_natCast _ (by omega)]
    constructor <;> linarith
  · have hq : (n : ℚ) = 100 * ((n / 100 : ℕ) : ℚ) + ((n % 100 : ℕ) : ℚ) := by
      exact_mod_cast hdm.symm
    have hr1 : (1 : ℚ) ≤ ((n % 100 : ℕ) : ℚ) := by
      have : 1 ≤ n % 100 := by omega
      exact_mod_cast this
    have hr2 : ((n % 100 : ℕ) : ℚ) ≤ 99 := by
      have : n % 100 ≤ 99 := by omega
      exact_mod_cast this
    have hn : (n : ℚ) < 2 ^ 24 := by exact_mod_cast h
    have hq0 : (0 : ℚ) ≤ ((n / 100 : ℕ) : ℚ) := Nat.cast_nonneg _
    have hx0 : (0 : ℚ) < (n : ℚ) / 100 := by
      apply div_pos _ (by norm_num)
      linarith
    have hlt : (n : ℚ) / 100 < (2 : ℚ) ^ ((17 : ℤ) + 1) := by
      rw [div_lt_iff₀ (by norm_num)]
      norm_num
      norm_num at hn
      linarith
    have herr := f32_err _ hx0 17 hlt
    have h7 : (2 : ℚ) ^ ((17 : ℤ) - 24) = 1 / 128 := by norm_num [zpow_neg]
    rw [h7, abs_le] at herr
    have hxe : (n : ℚ) / 100 = ((n / 100 : ℕ) : ℚ) + ((n % 100 : ℕ) : ℚ) / 100 := by
      rw [hq]; field_simp; ring
    constructor
    · have : (1 : ℚ) / 100 ≤ ((n % 100 : ℕ) : ℚ) / 100 := by
        apply div_le_div_of_nonneg_right hr1 (by norm_num)
      linarith [herr.1]
    · have : ((n % 100 : ℕ) : ℚ) / 100 ≤ 99 / 100 := by
        apply div_le_div_of_nonneg_right hr2 (by norm_num)
      linarith [herr.2]

theorem f2u32_of_bounds (x : ℚ) (q : ℕ) (hq : q < 2 ^ 32) (h1 : (q : ℚ) ≤ x) (h2 : x < (q : ℚ) + 1) :
    f2u32 x = q := by
  have hx0 : 0 ≤ x := le_trans (Nat.cast_nonneg q) h1
  have hfl : ⌊x⌋ = (q : ℤ) := by
    rw [Int.floor_eq_iff]
    constructor
    · exact_mod_cast h1
    · exact_mod_cast h2
  unfold f2u32 truncQ
  rw [if_pos hx0, hfl]
  omega

theorem f2u32_f32_div100 (n : ℕ) (h : n < 2 ^ 24) : f2u32 (f32 ((n : ℚ) / 100)) = n / 100 := by
  have hb := f32_div100 n h
  exact f2u32_of_bounds _ _ (by omega) hb.1 hb.2

/-! ## Machine arithmetic: where it is exact -/

theorem u32_natCast (n : ℕ) (h : n < 2 ^ 32) : u32 (n : ℤ) = n := by
  unfold u32
  omega

theorem wrap32_natCast (n : ℕ) (h : n < 2 ^ 31) : wrap32 (n : ℤ) = n := by
  unfold wrap32
  omega

theorem u32_wrap32_small (n : ℕ) (h : n < 2 ^ 31) : u32 (wrap32 (n : ℤ)) = n := by
  unfold u32 wrap32
  omega

theorem u32_wrap32_natCast (n : ℕ) : u32 (wrap32 (n : ℤ)) = n % 2 ^ 32 := by
  unfold u32 wrap32
  omega

theorem f32_ofNat_lit (n : ℕ) [n.AtLeastTwo] (h : n < 2 ^ 24) :
    f32 (OfNat.ofNat n : ℚ) = OfNat.ofNat n := by
  have := f32_natCast n h
  simpa using this

theorem truncQ_natCast (n : ℕ) : truncQ (n : ℚ) = n := by
  simp [truncQ]

theorem f2u8_natCast (n : ℕ) (h : n < 2 ^ 8) : f2u8 (n : ℚ) = n := by
  rw [f2u8, truncQ_natCast]
  omega

theorem f2u32_natCast (n : ℕ) (h : n < 2 ^ 32) : f2u32 (n : ℚ) = n := by
  rw [f2u32, truncQ_natCast]
  omega

/-! ## The command handler on a frame -/

theorem handle_command_frame (voltage current : Nat) (s : State) (cmd1 cmd2 : Nat)
    (tx : Nat → Nat) (burstindex tx_bytes : Nat) :
    handle_command voltage current s (frame cmd1 cmd2) tx burstindex tx_bytes
      = dispatch voltage current s (cmd1 % 2 ^ 8) (cmd2 % 2 ^ 8)
          ((((cmd1 % 2 ^ 8) <<< 8) + cmd2 % 2 ^ 8) % 2 ^ 16) tx tx_bytes := by
  simp [handle_command, frame]

/-- A command that is no case label of the `switch` reaches the one byte
commands. -/
theorem dispatch_unhandled (voltage current : Nat) (s : State) (cmd1 cmd2 cmd : Nat)
    (tx : Nat → Nat) (tx_bytes : Nat) (h : cmd ∉ handled_commands) :
    dispatch voltage current s cmd1 cmd2 cmd tx tx_bytes
      = some ⟨one_byte_command cmd1 cmd2 s, tx, tx_bytes, 1⟩ := by
  simp only [handled_commands, List.mem_cons, List.mem_singleton, not_or, List.not_mem_nil,
    or_false] at h
  unfold dispatch
  simp only [h, if_false]

/-! ## C1 -/

/-- C1 (refuted on the code): `position100_to_location` does not clamp a position
above 100 to the soft limit, it returns the number 100. After `motor_init` the soft
limit is 2596; position 160 maps to location 100 and position 100 to location
2596, so the extended go-to frame `0x1a 0x00` (position 160.0) stores the target
100 while the frame `0x16 0x40` (position 100.0) stores 2596. -/
theorem C1_position_above_100_not_clamped (b : Board) (voltage current burstindex tx_bytes : Nat)
    (tx : Nat → Nat) :
    (motor_init (boot b)).soft_lower_limit = 2596 ∧
    position100_to_location (motor_init (boot b)) 160 = 100 ∧
    position100_to_location (motor_init (boot b)) 100 = 2596 ∧
    (handle_command voltage current (motor_init (boot b)) (frame 0x1a 0x00) tx burstindex
        tx_bytes).map (fun r => r.state.target_location) = some 100 ∧
    (handle_command voltage current (motor_init (boot b)) (frame 0x16 0x40) tx burstindex
        tx_bytes).map (fun r => r.state.target_location) = some 2596 := by
  have hS : (motor_init (boot b)).soft_lower_limit = 2596 := rfl
  have hd : f2u32 (f32 ((259600 : ℚ) / 100)) = 2596 := by
    have := f2u32_f32_div100 259600 (by norm_num); simpa using this
  have p160 : position100_to_location (motor_init (boot b)) 160 = 100 := by
    rw [position100_to_location, if_pos (by norm_num)]
  have p100 : position100_to_location (motor_init (boot b)) 100 = 2596 := by
    have e1 : f32 (2596 : ℚ) = 2596 := f32_ofNat_lit 2596 (by norm_num)
    have e2 : f32 (259600 : ℚ) = 259600 := f32_ofNat_lit 259600 (by norm_num)
    have e3 : (100 : ℚ) * 2596 = 259600 := by norm_num
    simp only [position100_to_location, hS, Nat.cast_ofNat, e1, e3, e2, hd]
    simp
  refine ⟨hS, p160, p100, ?_, ?_⟩
  · rw [handle_command_frame]
    have c : (((0x1a % 2 ^ 8) <<< 8) + 0x00 % 2 ^ 8) % 2 ^ 16 = 6656 := by decide
    have a1 : ((0x1a % 2 ^ 8) &&& 0xf0 : ℕ) = 0x10 := by decide
    have a2 : ((((0x1a % 2 ^ 8) &&& 0x0f) <<< 8 + 0x00 % 2 ^ 8) % 2 ^ 16 : ℕ) = 2560 := by decide
    have e1 : f32 (2560 : ℚ) = 2560 := f32_ofNat_lit 2560 (by norm_num)
    have e2 : (2560 : ℚ) / 16 = 160 := by norm_num
    have e3 : f32 (160 : ℚ) = 160 := f32_ofNat_lit 160 (by norm_num)
    rw [c]
    simp only [dispatch, one_byte_command, a1, a2, Nat.cast_ofNat, e1, e2, e3, go_to, p160]
    simp
    split_ifs <;> rfl
  · rw [handle_command_frame]
    have c : (((0x16 % 2 ^ 8) <<< 8) + 0x40 % 2 ^ 8) % 2 ^ 16 = 5696 := by decide
    have a1 : ((0x16 % 2 ^ 8) &&& 0xf0 : ℕ) = 0x10 := by decide
    have a2 : ((((0x16 % 2 ^ 8) &&& 0x0f) <<< 8 + 0x40 % 2 ^ 8) % 2 ^ 16 : ℕ) = 1600 := by decide
    have e1 : f32 (1600 : ℚ) = 1600 := f32_ofNat_lit 1600 (by norm_num)
    have e2 : (1600 : ℚ) / 16 = 100 := by norm_num
    have e3 : f32 (100 : ℚ) = 100 := f32_ofNat_lit 100 (by norm_num)
    rw [c]
    simp only [dispatch, one_byte_command, a1, a2, Nat.cast_ofNat, e1, e2, e3, go_to, p100]
    simp
    split_ifs <;> rfl

/-! ## C2 -/

/-- C2 (refuted on the code): `CMD_UP_17` does not clamp the target at 0. For every
state the frame `0x0a 0x0d` stores `(target_location - 8) mod 2 ^ 32` and the
command `MotorUp`; after `motor_init`, where the target is 0, it stores
4294967288. -/
theorem C2_up_17_wraps_below_zero (voltage current burstindex tx_bytes : Nat) (tx : Nat → Nat) :
    (∀ s : State,
      (handle_command voltage current s (frame 0x0a 0x0d) tx burstindex tx_bytes).map
        (fun r => (r.state.target_location, r.state.command))
        = some ((s.target_location + 2 ^ 32 - 8) % 2 ^ 32, MotorUp)) ∧
    started.target_location = 0 ∧
    (handle_command voltage current started (frame 0x0a 0x0d) tx burstindex tx_bytes).map
        (fun r => (r.state.target_location, r.state.command)) = some (4294967288, MotorUp) := by
  have h : ∀ s : State,
      (handle_command voltage current s (frame 0x0a 0x0d) tx burstindex tx_bytes).map
        (fun r => (r.state.target_location, r.state.command))
        = some ((s.target_location + 2 ^ 32 - 8) % 2 ^ 32, MotorUp) := by
    intro s
    rw [handle_command_frame]
    have c : (((0x0a % 2 ^ 8) <<< 8) + 0x0d % 2 ^ 8) % 2 ^ 16 = 0x0a0d := by decide
    have d : DEG_TO_LOCATION 17 = 8 := by decide
    rw [c]
    simp [dispatch, cmd_up_17, d]
  refine ⟨h, rfl, ?_⟩
  rw [h]
  rfl

/-! ## C4 -/

/-- C4 (refuted on the code): `location_to_position100` does not guard a soft limit
of zero. The state that `motor_init` and `CMD_SET_SOFT_LIMIT` at location 0 leave
has `soft_lower_limit = 0`, `location = 0` and `resetting = 0`; there the function
reaches the division `100*location/soft_lower_limit` with divisor 0 and has no
result, and neither has the `CMD_GET_STATUS` query that calls it. -/
theorem C4_zero_soft_limit_divides_by_zero (voltage current burstindex tx_bytes : Nat)
    (tx : Nat → Nat) :
    zero_limit_state.soft_lower_limit = 0 ∧ zero_limit_state.location = 0 ∧
    zero_limit_state.resetting = 0 ∧
    location_to_position100 zero_limit_state = none ∧
    handle_command voltage current zero_limit_state (frame 0xcc 0xcc) tx burstindex tx_bytes
      = none := by
  have h1 : zero_limit_state.soft_lower_limit = 0 := by decide
  have h2 : zero_limit_state.location = 0 := by decide
  have h3 : zero_limit_state.resetting = 0 := by decide
  have h4 : location_to_position100 zero_limit_state = none := by
    simp [location_to_position100, h1, h2, h3, u32]
  refine ⟨h1, h2, h3, h4, ?_⟩
  rw [handle_command_frame]
  have c : (((0xcc % 2 ^ 8) <<< 8) + 0xcc % 2 ^ 8) % 2 ^ 16 = 0xcccc := by decide
  rw [c]
  simp [dispatch, h4]

/-! ## C3 -/

/-- The round trip where binary32 arithmetic is exact. -/
theorem round_trip_value (s : State) (L : ℕ) (hr : s.resetting = 0) (hS : 0 < s.soft_lower_limit)
    (hS2 : 100 * s.soft_lower_limit < 2 ^ 24) (hL : s.location = (L : ℤ))
    (h1 : L ≤ s.soft_lower_limit) :
    location_to_position100 s = some ((100 * L / s.soft_lower_limit : ℕ) : ℚ) ∧
    position100_to_location s ((100 * L / s.soft_lower_limit : ℕ) : ℚ)
      = (100 * L / s.soft_lower_limit) * s.soft_lower_limit / 100 := by
  have hq : 100 * L / s.soft_lower_limit ≤ 100 := by
    apply Nat.div_le_of_le_mul
    nlinarith
  have hm : (100 * L / s.soft_lower_limit) * s.soft_lower_limit ≤ 100 * L :=
    Nat.div_mul_le_self _ _
  constructor
  · unfold location_to_position100
    have h100 : (100 : ℤ) * s.location = ((100 * L : ℕ) : ℤ) := by rw [hL]; push_cast; ring
    rw [if_neg (by simp [hr]), if_neg (by rw [hL]; omega), hL, u32_natCast L (by omega),
      if_neg (by omega), if_neg (by omega)]
    rw [show (100 : ℤ) * (L : ℤ) = ((100 * L : ℕ) : ℤ) by push_cast; ring,
      u32_wrap32_small _ (by omega), f32_natCast _ (by omega)]
  · unfold position100_to_location
    rw [if_neg (by
      have : ((100 * L / s.soft_lower_limit : ℕ) : ℚ) ≤ ((100 : ℕ) : ℚ) := by exact_mod_cast hq
      simpa using this)]
    rw [f32_natCast _ (by omega), ← Nat.cast_mul, f32_natCast _ (by omega),
      f2u32_f32_div100 _ (by omega)]

/-- What the round trip of the code loses. For a soft limit `S > 0` with
`100 * S < 2 ^ 24` (where binary32 arithmetic is exact), not resetting, and a
location `L` with `0 ≤ L ≤ S`, the function `location_to_position100` has a result
`p`, and `r = position100_to_location p` satisfies `r ≤ L` and
`100 * (L - r) ≤ S + 98`: the integer division of line 101 drops the fraction of
the percentage. The round trip is within 1 of `L` when `S ≤ 101`. -/
theorem round_trip_bound (s : State) (hr : s.resetting = 0) (hS : 0 < s.soft_lower_limit)
    (hS2 : 100 * s.soft_lower_limit < 2 ^ 24) (h0 : 0 ≤ s.location)
    (h1 : s.location ≤ s.soft_lower_limit) :
    ∃ p, location_to_position100 s = some p ∧
      (position100_to_location s p : ℤ) ≤ s.location ∧
      100 * (s.location - position100_to_location s p) ≤ s.soft_lower_limit + 98 ∧
      (s.soft_lower_limit ≤ 101 → |(position100_to_location s p : ℤ) - s.location| ≤ 1) := by
  obtain ⟨L, hL⟩ : ∃ L : ℕ, s.location = (L : ℤ) := ⟨s.location.toNat, by omega⟩
  have hLS : L ≤ s.soft_lower_limit := by omega
  obtain ⟨e1, e2⟩ := round_trip_value s L hr hS hS2 hL hLS
  refine ⟨_, e1, ?_⟩
  rw [e2, hL]
  have hm : (100 * L / s.soft_lower_limit) * s.soft_lower_limit ≤ 100 * L :=
    Nat.div_mul_le_self _ _
  have hm2 : 100 * L < (100 * L / s.soft_lower_limit) * s.soft_lower_limit + s.soft_lower_limit :=
    Nat.lt_div_mul_add hS
  generalize (100 * L / s.soft_lower_limit) * s.soft_lower_limit = m at hm hm2 ⊢
  refine ⟨by omega, by omega, ?_⟩
  intro h101
  rw [abs_le]
  omega

/-- The bound of the round trip at soft limit 2596 and location 1000. -/
theorem round_trip_bound_witness :
    (mid_state.resetting = 0 ∧ 0 < mid_state.soft_lower_limit ∧
      100 * mid_state.soft_lower_limit < 2 ^ 24 ∧ 0 ≤ mid_state.location ∧
      mid_state.location ≤ mid_state.soft_lower_limit) ∧
    ∃ p, location_to_position100 mid_state = some p ∧
      (position100_to_location mid_state p : ℤ) ≤ mid_state.location ∧
      100 * (mid_state.location - position100_to_location mid_state p)
        ≤ mid_state.soft_lower_limit + 98 ∧
      (mid_state.soft_lower_limit ≤ 101 →
        |(position100_to_location mid_state p : ℤ) - mid_state.location| ≤ 1) :=
  ⟨⟨rfl, by decide, by decide, by decide, by decide⟩,
    round_trip_bound mid_state rfl (by decide) (by decide) (by decide) (by decide)⟩

/-- C3 (refuted on the code): the round trip does not recover the location within 1.
The function `location_to_position100` returns a `float` but divides integers
(line 101), so the position is cut to a whole percent. After `motor_init` (soft
limit 2596, not resetting) the location 1000 has the position 38 (the quotient
100000/2596 is 38.52) and `position100_to_location` maps 38 back to
`38 * 2596 / 100 = 986`, which is 14 away from 1000. -/
theorem C3_round_trip_loses_14 :
    mid_state.soft_lower_limit = 2596 ∧ mid_state.location = 1000 ∧ mid_state.resetting = 0 ∧
    location_to_position100 mid_state = some 38 ∧
    position100_to_location mid_state 38 = 986 ∧
    ¬ |((986 : ℕ) : ℤ) - 1000| ≤ 1 := by
  have hv := round_trip_value mid_state 1000 rfl (by decide) (by decide) rfl (by decide)
  have e : 100 * 1000 / mid_state.soft_lower_limit = 38 := by decide
  rw [e] at hv
  refine ⟨rfl, rfl, rfl, ?_, ?_, by decide⟩
  · simpa using hv.1
  · have h2 := hv.2
    have e2 : 38 * mid_state.soft_lower_limit / 100 = 986 := by decide
    rw [e2] at h2
    simpa using h2

/-! ## C5 -/

theorem ticks_succ (b : Board) (k : Nat) (s : State) :
    ticks b (k + 1) s = hall_sensor_callback b b.HALL_1_SENSOR (ticks b k s) := by
  simp [ticks, Function.iterate_succ_apply']

theorem hall_tick_up (b : Board) (s : State) (n : ℕ) (hr : s.resetting = 0)
    (hd : s.direction = Up) (hloc : s.location = (n : ℤ) + 1) (hn : n < 2 ^ 31) :
    (hall_sensor_callback b b.HALL_1_SENSOR s).location = n ∧
    (hall_sensor_callback b b.HALL_1_SENSOR s).resetting = 0 ∧
    (hall_sensor_callback b b.HALL_1_SENSOR s).target_location = s.target_location ∧
    (n ≤ s.target_location →
      (hall_sensor_callback b b.HALL_1_SENSOR s).status = Stopped ∧
      (hall_sensor_callback b b.HALL_1_SENSOR s).direction = motor_direction.None) ∧
    (s.target_location < n →
      (hall_sensor_callback b b.HALL_1_SENSOR s).status = s.status ∧
      (hall_sensor_callback b b.HALL_1_SENSOR s).direction = Up) := by
  have hw : wrap32 (s.location - 1) = (n : ℤ) := by
    rw [hloc, add_sub_cancel_right]; exact wrap32_natCast n hn
  have hu : u32 (n : ℤ) = n := u32_natCast n (by omega)
  simp only [hall_sensor_callback, if_true, hr, process_location, hd, hw, hu]
  by_cases hc : n ≤ s.target_location
  · simp [hc, motor_stop, hr]
  · simp [hc, hr, hd]

theorem hall_tick_down (b : Board) (s : State) (n : ℕ) (hr : s.resetting = 0)
    (hd : s.direction = Down) (hloc : s.location = (n : ℤ)) (hn : n + 1 < 2 ^ 31) :
    (hall_sensor_callback b b.HALL_1_SENSOR s).location = (n : ℤ) + 1 ∧
    (hall_sensor_callback b b.HALL_1_SENSOR s).resetting = 0 ∧
    (hall_sensor_callback b b.HALL_1_SENSOR s).target_location = s.target_location ∧
    (s.target_location ≤ n + 1 →
      (hall_sensor_callback b b.HALL_1_SENSOR s).status = Stopped ∧
      (hall_sensor_callback b b.HALL_1_SENSOR s).direction = motor_direction.None) ∧
    (n + 1 < s.target_location →
      (hall_sensor_callback b b.HALL_1_SENSOR s).status = s.status ∧
      (hall_sensor_callback b b.HALL_1_SENSOR s).direction = Down) := by
  have hw : wrap32 (s.location + 1) = ((n + 1 : ℕ) : ℤ) := by
    rw [hloc]; exact_mod_cast wrap32_natCast (n + 1) hn
  have hu : u32 ((n + 1 : ℕ) : ℤ) = n + 1 := u32_natCast (n + 1) (by omega)
  simp only [hall_sensor_callback, if_true, hr, process_location, hd, hw, hu]
  by_cases hc : s.target_location ≤ n + 1
  · simp [hc, motor_stop, hr]
  · simp [hc, hr, hd]

theorem hall_tick_idle (b : Board) (s : State) (hd : s.direction = motor_direction.None) :
    (hall_sensor_callback b b.HALL_1_SENSOR s).location = s.location ∧
    (hall_sensor_callback b b.HALL_1_SENSOR s).direction = motor_direction.None := by
  by_cases hr : s.resetting = 0 <;> simp [hall_sensor_callback, process_location, hd, hr]

theorem ticks_idle (b : Board) (s : State) (hd : s.direction = motor_direction.None) (j : ℕ) :
    (ticks b j s).location = s.location ∧ (ticks b j s).direction = motor_direction.None := by
  induction j with
  | zero => exact ⟨rfl, hd⟩
  | succ j ih =>
    rw [ticks_succ]
    have h := hall_tick_idle b (ticks b j s) ih.2
    exact ⟨h.1.trans ih.1, h.2⟩

theorem ticks_add (b : Board) (j k : ℕ) (s : State) :
    ticks b (j + k) s = ticks b j (ticks b k s) := by
  simp [ticks, Function.iterate_add_apply]

theorem ticks_up_run (b : Board) (s : State) (lo hi : ℕ) (hlt : lo < hi) (hhi : hi ≤ 2 ^ 31 - 1)
    (hst : s.status = Moving) (hr : s.resetting = 0) (hd : s.direction = Up)
    (hloc : s.location = (hi : ℤ)) (htar : s.target_location = lo) (k : ℕ) (hk : k ≤ hi - lo) :
    (ticks b k s).location = (hi : ℤ) - k ∧ (ticks b k s).resetting = 0 ∧
    (ticks b k s).target_location = lo ∧
    (k < hi - lo → (ticks b k s).status = Moving ∧ (ticks b k s).direction = Up) ∧
    (k = hi - lo → (ticks b k s).status = Stopped ∧
      (ticks b k s).direction = motor_direction.None) := by
  induction k with
  | zero =>
    refine ⟨by simpa [ticks] using hloc, hr, htar, fun _ => ⟨hst, hd⟩, fun h => ?_⟩
    omega
  | succ k ih =>
    obtain ⟨i1, i2, i3, i4, -⟩ := ih (by omega)
    obtain ⟨i5, i6⟩ := i4 (by omega)
    rw [ticks_succ]
    obtain ⟨j1, j2, j3, j4, j5⟩ :=
      hall_tick_up b (ticks b k s) (hi - k - 1) i2 i6 (by rw [i1]; omega) (by omega)
    rw [i3] at j3 j4 j5
    refine ⟨by rw [j1]; omega, j2, j3, fun h => ?_, fun h => ?_⟩
    · have := j5 (by omega)
      exact ⟨this.1.trans i5, this.2⟩
    · exact j4 (by omega)

theorem ticks_down_run (b : Board) (s : State) (lo hi : ℕ) (hlt : lo < hi)
    (hhi : hi ≤ 2 ^ 31 - 1)
    (hst : s.status = Moving) (hr : s.resetting = 0) (hd : s.direction = Down)
    (hloc : s.location = (lo : ℤ)) (htar : s.target_location = hi) (k : ℕ) (hk : k ≤ hi - lo) :
    (ticks b k s).location = (lo : ℤ) + k ∧ (ticks b k s).resetting = 0 ∧
    (ticks b k s).target_location = hi ∧
    (k < hi - lo → (ticks b k s).status = Moving ∧ (ticks b k s).direction = Down) ∧
    (k = hi - lo → (ticks b k s).status = Stopped ∧
      (ticks b k s).direction = motor_direction.None) := by
  induction k with
  | zero =>
    refine ⟨by simpa [ticks] using hloc, hr, htar, fun _ => ⟨hst, hd⟩, fun h => ?_⟩
    omega
  | succ k ih =>
    obtain ⟨i1, i2, i3, i4, -⟩ := ih (by omega)
    obtain ⟨i5, i6⟩ := i4 (by omega)
    rw [ticks_succ]
    obtain ⟨j1, j2, j3, j4, j5⟩ :=
      hall_tick_down b (ticks b k s) (lo + k) i2 i6 (by rw [i1]; push_cast; ring) (by omega)
    rw [i3] at j3 j4 j5
    refine ⟨by rw [j1]; push_cast; ring, j2, j3, fun h => ?_, fun h => ?_⟩
    · have := j5 (by omega)
      exact ⟨this.1.trans i5, this.2⟩
    · exact j4 (by omega)

/-- C5: tick counting to the target. From a state with status `Moving`, not
resetting, and `0 ≤ lo < hi ≤ 2 ^ 31 - 1`: moving `Up` from location `hi` to target
`lo`, after `k < hi - lo` primary hall ticks the location is `hi - k` and the motor
still moves up; after exactly `hi - lo` ticks the location is `lo`, the status
`Stopped` and the direction `None`; further ticks leave the location at `lo`.
Moving `Down` from `lo` to target `hi` the same holds with the location `lo + k`
and the end `hi`. -/
theorem C5_tick_counting (b : Board) (s : State) (lo hi : ℕ) (hlt : lo < hi)
    (hhi : hi ≤ 2 ^ 31 - 1) (hst : s.status = Moving) (hr : s.resetting = 0) :
    (s.direction = Up → s.location = (hi : ℤ) → s.target_location = lo →
      (∀ k, k < hi - lo → (ticks b k s).location = (hi : ℤ) - k ∧
        (ticks b k s).status = Moving ∧ (ticks b k s).direction = Up) ∧
      ((ticks b (hi - lo) s).location = lo ∧ (ticks b (hi - lo) s).status = Stopped ∧
        (ticks b (hi - lo) s).direction = motor_direction.None) ∧
      (∀ k, hi - lo ≤ k → (ticks b k s).location = lo)) ∧
    (s.direction = Down → s.location = (lo : ℤ) → s.target_location = hi →
      (∀ k, k < hi - lo → (ticks b k s).location = (lo : ℤ) + k ∧
        (ticks b k s).status = Moving ∧ (ticks b k s).direction = Down) ∧
      ((ticks b (hi - lo) s).location = hi ∧ (ticks b (hi - lo) s).status = Stopped ∧
        (ticks b (hi - lo) s).direction = motor_direction.None) ∧
      (∀ k, hi - lo ≤ k → (ticks b k s).location = hi)) := by
  constructor
  · intro hd hloc htar
    have hend := ticks_up_run b s lo hi hlt hhi hst hr hd hloc htar (hi - lo) le_rfl
    have hendloc : (ticks b (hi - lo) s).location = lo := by rw [hend.1]; omega
    refine ⟨fun k hk => ?_, ⟨hendloc, hend.2.2.2.2 rfl⟩, fun k hk => ?_⟩
    · have h := ticks_up_run b s lo hi hlt hhi hst hr hd hloc htar k hk.le
      exact ⟨h.1, h.2.2.2.1 hk⟩
    · obtain ⟨j, rfl⟩ : ∃ j, k = j + (hi - lo) := ⟨k - (hi - lo), by omega⟩
      rw [ticks_add, (ticks_idle b _ (hend.2.2.2.2 rfl).2 j).1, hendloc]
  · intro hd hloc htar
    have hend := ticks_down_run b s lo hi hlt hhi hst hr hd hloc htar (hi - lo) le_rfl
    have hendloc : (ticks b (hi - lo) s).location = hi := by rw [hend.1]; omega
    refine ⟨fun k hk => ?_, ⟨hendloc, hend.2.2.2.2 rfl⟩, fun k hk => ?_⟩
    · have h := ticks_down_run b s lo hi hlt hhi hst hr hd hloc htar k hk.le
      exact ⟨h.1, h.2.2.2.1 hk⟩
    · obtain ⟨j, rfl⟩ : ∃ j, k = j + (hi - lo) := ⟨k - (hi - lo), by omega⟩
      rw [ticks_add, (ticks_idle b _ (hend.2.2.2.2 rfl).2 j).1, hendloc]


/-- C5 at the scenario of the claim: moving up from 200 to the target 190 the motor
still moves after 9 ticks, stops after exactly 10 ticks and stays at 190; moving
down from 190 to the target 200 likewise. -/
theorem C5_tick_counting_witness :
    ((ticks sample_board 9 up_run_state).location = 191 ∧
      (ticks sample_board 9 up_run_state).status = Moving ∧
      (ticks sample_board 10 up_run_state).location = 190 ∧
      (ticks sample_board 10 up_run_state).status = Stopped ∧
      (ticks sample_board 10 up_run_state).direction = motor_direction.None ∧
      (ticks sample_board 25 up_run_state).location = 190) ∧
    ((ticks sample_board 9 down_run_state).location = 199 ∧
      (ticks sample_board 9 down_run_state).status = Moving ∧
      (ticks sample_board 10 down_run_state).location = 200 ∧
      (ticks sample_board 10 down_run_state).status = Stopped ∧
      (ticks sample_board 10 down_run_state).direction = motor_direction.None ∧
      (ticks sample_board 25 down_run_state).location = 200) := by
  obtain ⟨u1, u2, u3⟩ := (C5_tick_counting sample_board up_run_state 190 200 (by decide)
    (by decide) (by decide) (by decide)).1 (by decide) (by decide) (by decide)
  obtain ⟨d1, d2, d3⟩ := (C5_tick_counting sample_board down_run_state 190 200 (by decide)
    (by decide) (by decide) (by decide)).2 (by decide) (by decide) (by decide)
  have u9 := u1 9 (by decide)
  have d9 := d1 9 (by decide)
  have u25 := u3 25 (by decide)
  have d25 := d3 25 (by decide)
  norm_num at u9 d9 u2 d2 u25 d25
  exact ⟨⟨u9.1, u9.2.1, u2.1, u2.2.1, u2.2.2, u25⟩, ⟨d9.1, d9.2.1, d2.1, d2.2.1, d2.2.2, d25⟩⟩

/-! ## C6 -/

/-- C6 (refuted on the code): the go-to commands compare `target_location` with
`location` as unsigned numbers. In the state reached by `motor_init`,
`CMD_OVERRIDE_UP_6`, `motor_process` and three hall ticks the location is -3; the
frame `0xdd 0x00` stores the target 0, which is not smaller than -3, and yet the
deferred command is `MotorUp`. -/
theorem C6_go_to_direction_unsigned (voltage current burstindex tx_bytes : Nat)
    (tx : Nat → Nat) :
    above_top_state.location = -3 ∧
    (handle_command voltage current above_top_state (frame 0xdd 0x00) tx burstindex
      tx_bytes).map (fun r => (r.state.target_location, r.state.command)) = some (0, MotorUp) ∧
    ¬ (((0 : ℕ) : ℤ) < above_top_state.location) := by
  have hl : above_top_state.location = -3 := by decide
  refine ⟨hl, ?_, by rw [hl]; decide⟩
  rw [handle_command_frame]
  have c : (((0xdd % 2 ^ 8) <<< 8) + 0x00 % 2 ^ 8) % 2 ^ 16 = 56576 := by decide
  have p0 : position100_to_location above_top_state 0 = 0 := by
    rw [position100_to_location, if_neg (by norm_num)]
    simp [f32_zero, f2u32, truncQ]
  have hu : u32 (-3) = 4294967293 := by decide
  rw [c]
  simp [dispatch, one_byte_command, go_to, f32_zero, p0, hl, hu]

/-! ## C7 -/

theorem handle_command_set_speed (voltage current : Nat) (s : State) (rx tx : Nat → Nat)
    (burstindex tx_bytes : Nat) (h : rx 3 % 2 ^ 8 = 0x20) :
    handle_command voltage current s rx tx burstindex tx_bytes
      = some ⟨cmd_set_speed (rx 4 % 2 ^ 8) s, tx, tx_bytes, 1⟩ := by
  have h2 : rx 4 % 2 ^ 8 < 2 ^ 8 := Nat.mod_lt _ (by norm_num)
  have hc : ((rx 3 % 2 ^ 8) <<< 8 + rx 4 % 2 ^ 8) % 2 ^ 16 = 8192 + rx 4 % 2 ^ 8 := by
    rw [h, Nat.shiftLeft_eq]; omega
  have hn : ((rx 3 % 2 ^ 8) <<< 8 + rx 4 % 2 ^ 8) % 2 ^ 16 ∉ handled_commands := by
    rw [hc]
    simp only [handled_commands, List.mem_cons, List.mem_singleton, List.not_mem_nil, or_false]
    omega
  simp only [handle_command]
  rw [dispatch_unhandled _ _ _ _ _ _ _ _ hn, h]
  simp [one_byte_command]

/-- C7 (amended): for every state and every frame with `cmd1 = 0x20` and parameter
`p = cmd2`, `handle_command` returns with `default_speed = p`; `target_speed = p`
when the old `target_speed` was not 0, and `target_speed` stays 0 when it was 0,
whatever the status, which the command leaves as it is. -/
theorem C7_set_speed (voltage current : Nat) (s : State) (rx tx : Nat → Nat)
    (burstindex tx_bytes : Nat) (h : rx 3 % 2 ^ 8 = 0x20) :
    ∃ r, handle_command voltage current s rx tx burstindex tx_bytes = some r ∧
      r.ret = 1 ∧
      r.state.default_speed = rx 4 % 2 ^ 8 ∧
      (s.target_speed ≠ 0 → r.state.target_speed = rx 4 % 2 ^ 8) ∧
      (s.target_speed = 0 → r.state.target_speed = 0) ∧
      r.state.status = s.status := by
  refine ⟨_, handle_command_set_speed voltage current s rx tx burstindex tx_bytes h, rfl, ?_⟩
  by_cases h0 : s.target_speed = 0 <;> simp [cmd_set_speed, h0]

/-- C7, the amended statement at a moving motor with set-point 18 and the frame
`0x20 0x05`: both speeds become 5. -/
theorem C7_set_speed_witness :
    up_at_top_state.status = Moving ∧ up_at_top_state.target_speed = 18 ∧
    ∃ r, handle_command 0 0 up_at_top_state (frame 0x20 0x05) (fun _ => 0) 0 0 = some r ∧
      r.state.default_speed = 5 ∧ r.state.target_speed = 5 ∧ r.state.status = Moving := by
  obtain ⟨r, h1, -, h2, h3, -, h4⟩ :=
    C7_set_speed 0 0 up_at_top_state (frame 0x20 0x05) (fun _ => 0) 0 0 (by decide)
  exact ⟨by decide, by decide, r, h1, h2, h3 (by decide), h4⟩

/-- C7 (counterexample): the state reached by `motor_init`, `CMD_SET_SPEED` 0, `CMD_UP`
and `motor_process` has status `Moving` and `target_speed = 0`; the frame
`0x20 0x05` sets `default_speed = 5` and leaves `target_speed` at 0. -/
theorem C7_set_speed_counterexample :
    moving_at_speed_zero.status = Moving ∧
    (after_command moving_at_speed_zero 0x20 0x05).default_speed = 5 ∧
    (after_command moving_at_speed_zero 0x20 0x05).target_speed = 0 := by
  decide

/-! ## C8 -/

/-- C8: inside the grace period the stall detector does not fire. For every state
with status `Moving` and `(tick - movement_started_timestamp) mod 2 ^ 32` at most
`MOVEMENT_GRACE_PERIOD`, whatever `hall_idle_time` is, `motor_stall_check` changes
nothing but `hall_idle_time`, which it increments (as a `uint32_t`); with status
`Stopped` it changes nothing at all. -/
theorem C8_no_stall_in_grace_period (b : Board) (tick : Nat) (s : State) :
    (s.status = Moving →
      (((tick : ℤ) - s.movement_started_timestamp) % 2 ^ 32 ≤ b.MOVEMENT_GRACE_PERIOD) →
      motor_stall_check b tick s
        = { s with hall_idle_time := (s.hall_idle_time + 1) % 2 ^ 32 }) ∧
    (s.status = Stopped → motor_stall_check b tick s = s) := by
  constructor
  · intro hm hg
    have hg2 : ¬ (tick + 2 ^ 32 - s.movement_started_timestamp % 2 ^ 32) % 2 ^ 32
        > b.MOVEMENT_GRACE_PERIOD := by omega
    simp only [motor_stall_check, hm, if_true, if_neg hg2]
  · intro hs
    simp [motor_stall_check, hs]

/-- C8 at a motor started at tick 0, checked at tick 100 with an idle time of 4000
(far above `HALL_TIMEOUT`), and at the stopped motor after start-up. -/
theorem C8_no_stall_in_grace_period_witness :
    motor_stall_check sample_board 100 { up_at_top_state with hall_idle_time := 4000 }
      = { up_at_top_state with hall_idle_time := 4001 } ∧
    motor_stall_check sample_board 100 started = started :=
  ⟨(C8_no_stall_in_grace_period sample_board 100
      { up_at_top_state with hall_idle_time := 4000 }).1 (by decide) (by decide),
    (C8_no_stall_in_grace_period sample_board 100 started).2 (by decide)⟩

/-! ## C10 -/

/-- The reply of `CMD_GET_STATUS` wherever `location_to_position100` has a result
`p`: eight bytes `00 ff d8`, battery, voltage/16, RPM, position, checksum, with the
globals unchanged and the return value 1. -/
theorem status_reply_bytes (voltage current burstindex tx_bytes : Nat) (tx : Nat → Nat)
    (s : State) (p : ℚ) (h : location_to_position100 s = some p) :
    ∃ r, handle_command voltage current s (frame 0xcc 0xcc) tx burstindex tx_bytes = some r ∧
      r.state = s ∧ r.ret = 1 ∧ r.tx_bytes = 8 ∧
      r.tx_buffer 0 = 0x00 ∧ r.tx_buffer 1 = 0xff ∧ r.tx_buffer 2 = 0xd8 ∧
      r.tx_buffer 3 = calculate_battery ∧ r.tx_buffer 4 = (voltage / 16) % 2 ^ 8 ∧
      r.tx_buffer 5 = f2u8 (get_rpm s) % 2 ^ 8 ∧ r.tx_buffer 6 = f2u8 p % 2 ^ 8 ∧
      r.tx_buffer 7
        = (r.tx_buffer 3 ^^^ r.tx_buffer 4 ^^^ r.tx_buffer 5 ^^^ r.tx_buffer 6) % 2 ^ 8 := by
  rw [handle_command_frame]
  have c : (((0xcc % 2 ^ 8) <<< 8) + 0xcc % 2 ^ 8) % 2 ^ 16 = 0xcccc := by decide
  rw [c]
  simp only [dispatch, if_true, h]
  refine ⟨_, rfl, rfl, rfl, rfl, ?_⟩
  simp [status_reply, write, calculate_battery]

/-- C10 (refuted on the code): the status query has no reply in every state. In the
state reached by `motor_init`, `CMD_SET_SOFT_LIMIT` at location 0 and `CMD_UP`
(`0x0add`), the frame `0xcc 0xcc` makes `location_to_position100` divide by the soft
limit 0, so `handle_command` has no result: no reply is framed. -/
theorem C10_status_reply_undefined (voltage current burstindex tx_bytes : Nat)
    (tx : Nat → Nat) :
    (after_command zero_limit_state 0x0a 0xdd).command = MotorUp ∧
    (after_command zero_limit_state 0x0a 0xdd).soft_lower_limit = 0 ∧
    (after_command zero_limit_state 0x0a 0xdd).location = 0 ∧
    (after_command zero_limit_state 0x0a 0xdd).resetting = 0 ∧
    handle_command voltage current (after_command zero_limit_state 0x0a 0xdd)
      (frame 0xcc 0xcc) tx burstindex tx_bytes = none := by
  have h0 : (after_command zero_limit_state 0x0a 0xdd).command = MotorUp := by decide
  have h1 : (after_command zero_limit_state 0x0a 0xdd).soft_lower_limit = 0 := by decide
  have h2 : (after_command zero_limit_state 0x0a 0xdd).location = 0 := by decide
  have h3 : (after_command zero_limit_state 0x0a 0xdd).resetting = 0 := by decide
  have h4 : location_to_position100 (after_command zero_limit_state 0x0a 0xdd) = none := by
    simp [location_to_position100, h1, h2, h3, u32]
  refine ⟨h0, h1, h2, h3, ?_⟩
  rw [handle_command_frame]
  have c : (((0xcc % 2 ^ 8) <<< 8) + 0xcc % 2 ^ 8) % 2 ^ 16 = 0xcccc := by decide
  rw [c]
  simp [dispatch, h4]

/-! ## What the command handler leaves alone -/

theorem KeepsMotor_refl (s : State) : KeepsMotor s s := by
  simp [KeepsMotor]

theorem KeepsDrive_ite (s : State) (c : Prop) [Decidable c] (a b : Option CmdResult)
    (ha : KeepsDrive s a) (hb : KeepsDrive s b) : KeepsDrive s (if c then a else b) := by
  split_ifs <;> assumption

theorem KeepsDrive_some (s t : State) (tx : Nat → Nat) (n : Nat) (h : KeepsMotor s t) :
    KeepsDrive s (some ⟨t, tx, n, 1⟩) := by
  intro r hr
  simp only [Option.some.injEq] at hr
  subst hr
  exact ⟨h, rfl⟩

theorem KeepsDrive_query (s : State) (f : ℚ → Nat → Nat) (n : Nat) :
    KeepsDrive s (match location_to_position100 s with
      | none => none
      | some p => some ⟨s, f p, n, 1⟩) := by
  intro r hr
  split at hr
  · exact absurd hr (by simp)
  · simp only [Option.some.injEq] at hr
    subst hr
    exact ⟨KeepsMotor_refl s, rfl⟩

theorem go_to_keeps (position : ℚ) (s : State) : KeepsMotor s (go_to position s) := by
  simp only [go_to]
  split_ifs <;> simp [KeepsMotor]

theorem cmd_set_speed_keeps (cmd2 : Nat) (s : State) : KeepsMotor s (cmd_set_speed cmd2 s) := by
  by_cases h0 : s.target_speed = 0 <;> simp [KeepsMotor, cmd_set_speed, h0]

theorem one_byte_command_keeps (cmd1 cmd2 : Nat) (s : State) :
    KeepsMotor s (one_byte_command cmd1 cmd2 s) := by
  unfold one_byte_command
  split_ifs
  · exact cmd_set_speed_keeps cmd2 s
  · exact go_to_keeps _ s
  · exact go_to_keeps _ s
  · exact KeepsMotor_refl s

theorem cmd_up_keeps (s : State) : KeepsMotor s (cmd_up s) := by
  simp [KeepsMotor, cmd_up]

theorem cmd_down_keeps (s : State) : KeepsMotor s (cmd_down s) := by
  simp [KeepsMotor, cmd_down]

theorem cmd_up_17_keeps (s : State) : KeepsMotor s (cmd_up_17 s) := by
  simp [KeepsMotor, cmd_up_17]

theorem cmd_down_17_keeps (s : State) : KeepsMotor s (cmd_down_17 s) := by
  simp [KeepsMotor, cmd_down_17]

theorem cmd_stop_keeps (s : State) : KeepsMotor s (cmd_stop s) := by
  simp [KeepsMotor, cmd_stop]

theorem cmd_override_up_keeps (deg : Nat) (s : State) : KeepsMotor s (cmd_override_up deg s) := by
  simp [KeepsMotor, cmd_override_up]

theorem cmd_override_down_keeps (deg : Nat) (s : State) :
    KeepsMotor s (cmd_override_down deg s) := by
  simp [KeepsMotor, cmd_override_down]

theorem cmd_set_soft_limit_keeps (s : State) : KeepsMotor s (cmd_set_soft_limit s) := by
  simp [KeepsMotor, cmd_set_soft_limit]

theorem cmd_set_hard_limit_keeps (s : State) : KeepsMotor s (cmd_set_hard_limit s) := by
  simp [KeepsMotor, cmd_set_hard_limit]

theorem cmd_reset_soft_limit_keeps (s : State) : KeepsMotor s (cmd_reset_soft_limit s) := by
  simp [KeepsMotor, cmd_reset_soft_limit]

theorem dispatch_keeps (voltage current : Nat) (s : State) (cmd1 cmd2 cmd : Nat)
    (tx : Nat → Nat) (tx_bytes : Nat) :
    KeepsDrive s (dispatch voltage current s cmd1 cmd2 cmd tx tx_bytes) := by
  unfold dispatch
  refine KeepsDrive_ite _ _ _ _ (KeepsDrive_query s _ _) ?_
  refine KeepsDrive_ite _ _ _ _ (KeepsDrive_some _ _ _ _ (cmd_up_keeps s)) ?_
  refine KeepsDrive_ite _ _ _ _ (KeepsDrive_some _ _ _ _ (cmd_down_keeps s)) ?_
  refine KeepsDrive_ite _ _ _ _ (KeepsDrive_some _ _ _ _ (cmd_up_17_keeps s)) ?_
  refine KeepsDrive_ite _ _ _ _ (KeepsDrive_some _ _ _ _ (cmd_down_17_keeps s)) ?_
  refine KeepsDrive_ite _ _ _ _ (KeepsDrive_some _ _ _ _ (cmd_stop_keeps s)) ?_
  refine KeepsDrive_ite _ _ _ _ (KeepsDrive_some _ _ _ _ (cmd_override_up_keeps 90 s)) ?_
  refine KeepsDrive_ite _ _ _ _ (KeepsDrive_some _ _ _ _ (cmd_override_down_keeps 90 s)) ?_
  refine KeepsDrive_ite _ _ _ _ (KeepsDrive_some _ _ _ _ (cmd_override_up_keeps 6 s)) ?_
  refine KeepsDrive_ite _ _ _ _ (KeepsDrive_some _ _ _ _ (cmd_override_down_keeps 6 s)) ?_
  refine KeepsDrive_ite _ _ _ _ (KeepsDrive_some _ _ _ _ (cmd_set_soft_limit_keeps s)) ?_
  refine KeepsDrive_ite _ _ _ _ (KeepsDrive_some _ _ _ _ (cmd_set_hard_limit_keeps s)) ?_
  refine KeepsDrive_ite _ _ _ _ (KeepsDrive_some _ _ _ _ (cmd_reset_soft_limit_keeps s)) ?_
  refine KeepsDrive_ite _ _ _ _ (KeepsDrive_query s _ _) ?_
  refine KeepsDrive_ite _ _ _ _ (KeepsDrive_some _ _ _ _ (KeepsMotor_refl s)) ?_
  exact KeepsDrive_some _ _ _ _ (one_byte_command_keeps cmd1 cmd2 s)

theorem handle_command_keeps (voltage current : Nat) (s : State) (rx tx : Nat → Nat)
    (burstindex tx_bytes : Nat) :
    KeepsDrive s (handle_command voltage current s rx tx burstindex tx_bytes) :=
  dispatch_keeps voltage current s _ _ _ tx tx_bytes

theorem returns_ite (c : Prop) [Decidable c] (a b : Option CmdResult)
    (ha : c → ∃ r, a = some r) (hb : ¬ c → ∃ r, b = some r) :
    ∃ r, (if c then a else b) = some r := by
  split_ifs with h
  · exact ha h
  · exact hb h

/-- Where `handle_command` returns: everywhere but in the two status queries
when `location_to_position100` divides by zero. -/
theorem handle_command_returns (voltage current : Nat) (s : State) (rx tx : Nat → Nat)
    (burstindex tx_bytes : Nat)
    (h : location_to_position100 s ≠ none ∨
      (((rx 3 % 2 ^ 8) <<< 8 + rx 4 % 2 ^ 8) % 2 ^ 16 ≠ 0xcccc ∧
        ((rx 3 % 2 ^ 8) <<< 8 + rx 4 % 2 ^ 8) % 2 ^ 16 ≠ 0xccde)) :
    ∃ r, handle_command voltage current s rx tx burstindex tx_bytes = some r := by
  simp only [handle_command]
  generalize ((rx 3 % 2 ^ 8) <<< 8 + rx 4 % 2 ^ 8) % 2 ^ 16 = cmd at h
  have hq : ∀ (c : Nat) (f : ℚ → CmdResult), cmd = c → c = 0xcccc ∨ c = 0xccde →
      ∃ r, (match location_to_position100 s with
        | none => none
        | some p => some (f p)) = some r := by
    intro c f hc hc2
    rcases h with h | ⟨h1, h2⟩
    · obtain ⟨p, hp⟩ := Option.ne_none_iff_exists'.mp h
      rw [hp]
      exact ⟨_, rfl⟩
    · rcases hc2 with hc2 | hc2
      · exact absurd (hc.trans hc2) h1
      · exact absurd (hc.trans hc2) h2
  unfold dispatch
  refine returns_ite _ _ _ (fun hc => hq _ _ hc (Or.inl rfl)) (fun _ => ?_)
  refine returns_ite _ _ _ (fun _ => ⟨_, rfl⟩) (fun _ => ?_)
  refine returns_ite _ _ _ (fun _ => ⟨_, rfl⟩) (fun _ => ?_)
  refine returns_ite _ _ _ (fun _ => ⟨_, rfl⟩) (fun _ => ?_)
  refine returns_ite _ _ _ (fun _ => ⟨_, rfl⟩) (fun _ => ?_)
  refine returns_ite _ _ _ (fun _ => ⟨_, rfl⟩) (fun _ => ?_)
  refine returns_ite _ _ _ (fun _ => ⟨_, rfl⟩) (fun _ => ?_)
  refine returns_ite _ _ _ (fun _ => ⟨_, rfl⟩) (fun _ => ?_)
  refine returns_ite _ _ _ (fun _ => ⟨_, rfl⟩) (fun _ => ?_)
  refine returns_ite _ _ _ (fun _ => ⟨_, rfl⟩) (fun _ => ?_)
  refine returns_ite _ _ _ (fun _ => ⟨_, rfl⟩) (fun _ => ?_)
  refine returns_ite _ _ _ (fun _ => ⟨_, rfl⟩) (fun _ => ?_)
  refine returns_ite _ _ _ (fun _ => ⟨_, rfl⟩) (fun _ => ?_)
  refine returns_ite _ _ _ (fun hc => hq _ _ hc (Or.inr rfl)) (fun _ => ?_)
  refine returns_ite _ _ _ (fun _ => ⟨_, rfl⟩) (fun _ => ?_)
  exact ⟨_, rfl⟩

/-! ## The shape of a step of the motor control -/

theorem process_location_cases (s : State) :
    (∃ t, process_location s = motor_stop t) ∨
    (∃ l, process_location s = { s with location := l }) := by
  simp only [process_location]
  split_ifs
  · exact Or.inl ⟨_, rfl⟩
  · exact Or.inr ⟨_, rfl⟩
  · exact Or.inl ⟨_, rfl⟩
  · exact Or.inr ⟨_, rfl⟩
  · exact Or.inr ⟨s.location, rfl⟩

theorem hall_sensor_callback_cases (b : Board) (sensor : Nat) (s : State) :
    (∃ t, hall_sensor_callback b sensor s = motor_stop t) ∨
    (∃ l i j, hall_sensor_callback b sensor s
      = { s with location := l, hall_interval := i, hall_idle_time := j }) := by
  simp only [hall_sensor_callback]
  split_ifs
  · rcases process_location_cases
      { s with hall_interval := s.hall_idle_time, hall_idle_time := 0 } with ⟨t, ht⟩ | ⟨l, hl⟩
    · exact Or.inl ⟨t, ht⟩
    · exact Or.inr ⟨l, s.hall_idle_time, 0, hl⟩
  · exact Or.inr ⟨s.location, s.hall_idle_time, 0, rfl⟩
  · exact Or.inr ⟨s.location, s.hall_interval, s.hall_idle_time, rfl⟩
  · exact Or.inr ⟨s.location, s.hall_interval, s.hall_idle_time, rfl⟩

theorem motor_stopped_cases (s : State) :
    (∃ t, motor_stopped s = { motor_stop t with hall_idle_time := 0 }) ∨ motor_stopped s = s := by
  simp only [motor_stopped]
  split_ifs
  · exact Or.inl ⟨_, rfl⟩
  · exact Or.inl ⟨_, rfl⟩
  · exact Or.inr rfl

theorem motor_stall_check_cases (b : Board) (tick : Nat) (s : State) :
    (∃ t, motor_stall_check b tick s = { motor_stop t with hall_idle_time := 0 }) ∨
    (∃ j, motor_stall_check b tick s = { s with hall_idle_time := j }) := by
  simp only [motor_stall_check]
  split_ifs
  · rcases motor_stopped_cases { s with hall_idle_time := (s.hall_idle_time + 1) % 2 ^ 32 }
      with ⟨t, ht⟩ | ht
    · rw [ht]
      exact Or.inl ⟨t, rfl⟩
    · rw [ht]
      exact Or.inr ⟨0, rfl⟩
  · exact Or.inr ⟨_, rfl⟩
  · exact Or.inr ⟨_, rfl⟩
  · exact Or.inr ⟨s.hall_idle_time, rfl⟩

theorem motor_process_cases (tick : Nat) (s : State) :
    (∃ sp, motor_process tick s = { motor_up tick sp s with command := NoCommand }) ∨
    (∃ sp, motor_process tick s = { motor_down tick sp s with command := NoCommand }) ∨
    motor_process tick s = { motor_stop s with command := NoCommand } ∨
    motor_process tick s = s := by
  simp only [motor_process]
  split_ifs
  · exact Or.inl ⟨_, rfl⟩
  · exact Or.inr (Or.inl ⟨_, rfl⟩)
  · exact Or.inr (Or.inr (Or.inl rfl))
  · exact Or.inr (Or.inr (Or.inr rfl))

/-- The three outcomes of `motor_adjust_rpm`, with `v` the measured speed. -/
theorem motor_adjust_rpm_cases (s : State) :
    (f2u32 (get_rpm s) < s.target_speed ∧ s.curr_pwm < 255 →
      motor_adjust_rpm s =
        if s.direction = Up then { s with curr_pwm := s.curr_pwm + 1, CCR4 := s.curr_pwm + 1 }
        else { s with curr_pwm := s.curr_pwm + 1, CCR1 := s.curr_pwm + 1 }) ∧
    (f2u32 (get_rpm s) > s.target_speed ∧ s.curr_pwm > 0 →
      motor_adjust_rpm s =
        if s.direction = Up then { s with curr_pwm := s.curr_pwm - 1, CCR4 := s.curr_pwm - 1 }
        else { s with curr_pwm := s.curr_pwm - 1, CCR1 := s.curr_pwm - 1 }) ∧
    (¬ (f2u32 (get_rpm s) < s.target_speed ∧ s.curr_pwm < 255) →
      ¬ (f2u32 (get_rpm s) > s.target_speed ∧ s.curr_pwm > 0) →
      motor_adjust_rpm s = s) := by
  generalize hv : f2u32 (get_rpm s) = v
  refine ⟨?_, ?_, ?_⟩
  · rintro ⟨h1, h2⟩
    have h3 : ¬ v > s.target_speed := by omega
    by_cases hd : s.direction = Up <;> simp [motor_adjust_rpm, hv, h1, h2, h3, hd]
  · rintro ⟨h1, h2⟩
    have h3 : ¬ v < s.target_speed := by omega
    by_cases hd : s.direction = Up <;> simp [motor_adjust_rpm, hv, h1, h2, h3, hd]
  · intro h1 h2
    simp only [motor_adjust_rpm, hv]
    by_cases a : v < s.target_speed
    · have a2 : ¬ s.curr_pwm < 255 := fun h => h1 ⟨a, h⟩
      have a3 : ¬ v > s.target_speed := by omega
      simp [a, a2, a3]
    · by_cases c : v > s.target_speed
      · have c2 : ¬ s.curr_pwm > 0 := fun h => h2 ⟨c, h⟩
        simp [a, c, c2]
      · simp [a, c]

/-! ## Invariants of the reachable states -/

/-- A property of the motor control that holds after `motor_stop`, `motor_up` and
`motor_down`, does not depend on the location, the hall timing and the deferred
command, and survives `motor_adjust_rpm` and every command, holds in every
reachable state. -/
theorem Reachable_invariant (b : Board) (P : State → Prop)
    (hstop : ∀ t, P (motor_stop t))
    (hup : ∀ tick sp t, P (motor_up tick sp t))
    (hdown : ∀ tick sp t, P (motor_down tick sp t))
    (hframe : ∀ s l i j c, P s →
      P { s with location := l, hall_interval := i, hall_idle_time := j, command := c })
    (hidle : ∀ t, P (motor_stop t) → P { motor_stop t with hall_idle_time := 0 })
    (hadjust : ∀ s, P s → P (motor_adjust_rpm s))
    (hkeeps : ∀ s t, KeepsMotor s t → P s → P t)
    (s : State) (h : Reachable b s) : P s := by
  induction h with
  | init s0 => exact hstop _
  | @process tick s _ ih =>
    rcases motor_process_cases tick s with ⟨sp, h⟩ | ⟨sp, h⟩ | h | h
    · rw [h]
      exact hframe (motor_up tick sp s) _ _ _ NoCommand (hup tick sp s)
    · rw [h]
      exact hframe (motor_down tick sp s) _ _ _ NoCommand (hdown tick sp s)
    · rw [h]
      exact hframe (motor_stop s) _ _ _ NoCommand (hstop s)
    · rw [h]
      exact ih
  | command voltage current rx tx burstindex tx_bytes _ hr ih =>
    exact hkeeps _ _ (handle_command_keeps voltage current _ rx tx burstindex tx_bytes _ hr).1 ih
  | @hall sensor s _ ih =>
    rcases hall_sensor_callback_cases b sensor s with ⟨t, h⟩ | ⟨l, i, j, h⟩
    · rw [h]
      exact hstop t
    · rw [h]
      exact hframe s l i j s.command ih
  | @stall tick s _ ih =>
    rcases motor_stall_check_cases b tick s with ⟨t, h⟩ | ⟨j, h⟩
    · rw [h]
      exact hidle t (hstop t)
    · rw [h]
      exact hframe s s.location s.hall_interval j s.command ih
  | adjust _ ih => exact hadjust _ ih
  | stop _ => exact hstop _
  | up tick motor_speed _ => exact hup _ _ _
  | down tick motor_speed _ => exact hdown _ _ _

theorem motor_adjust_rpm_idle (s : State) (h : StoppedIsIdle s) :
    StoppedIsIdle (motor_adjust_rpm s) := by
  obtain ⟨h1, h2, h3⟩ := motor_adjust_rpm_cases s
  by_cases a : f2u32 (get_rpm s) < s.target_speed ∧ s.curr_pwm < 255
  · rw [h1 a]
    intro hst
    have hs : s.status = Stopped := by
      revert hst
      split_ifs <;> exact id
    have := (h hs).2.2
    omega
  · by_cases c : f2u32 (get_rpm s) > s.target_speed ∧ s.curr_pwm > 0
    · rw [h2 c]
      intro hst
      have hs : s.status = Stopped := by
        revert hst
        split_ifs <;> exact id
      have := (h hs).2.1
      omega
    · rw [h3 a c]
      exact h

theorem KeepsMotor_idle (s t : State) (hk : KeepsMotor s t) (h : StoppedIsIdle s) :
    StoppedIsIdle t := by
  obtain ⟨-, k2, k3, k4, -, -, -, -, -, -, -, -, -, k14⟩ := hk
  intro hst
  obtain ⟨i1, i2, i3⟩ := h (k3 ▸ hst)
  exact ⟨k2.trans i1, k4.trans i2, k14 i3⟩

theorem Reachable_idle (b : Board) (s : State) (h : Reachable b s) : StoppedIsIdle s := by
  refine Reachable_invariant b StoppedIsIdle ?_ ?_ ?_ ?_ ?_ motor_adjust_rpm_idle
    KeepsMotor_idle s h
  · intro t _
    simp [motor_stop]
  · intro tick sp t hc
    simp [motor_up] at hc
  · intro tick sp t hc
    simp [motor_down] at hc
  · intro s l i j c hs
    exact hs
  · intro t ht
    exact ht

theorem motor_adjust_rpm_inv (s : State) (h : DriveInv s) : DriveInv (motor_adjust_rpm s) := by
  obtain ⟨h1, h2, h3⟩ := motor_adjust_rpm_cases s
  obtain ⟨⟨u, d, n⟩, z⟩ := h
  by_cases a : f2u32 (get_rpm s) < s.target_speed ∧ s.curr_pwm < 255
  · rw [h1 a]
    rcases hd : s.direction with _ | _ | _
    · have := (z hd).2
      omega
    · have := u hd
      simp [DriveInv, HBridge, hd, this]
    · have := d hd
      simp [DriveInv, HBridge, hd, this]
  · by_cases c : f2u32 (get_rpm s) > s.target_speed ∧ s.curr_pwm > 0
    · rw [h2 c]
      rcases hd : s.direction with _ | _ | _
      · have := (z hd).1
        omega
      · have := u hd
        simp [DriveInv, HBridge, hd, this]
      · have := d hd
        simp [DriveInv, HBridge, hd, this]
    · rw [h3 a c]
      exact ⟨⟨u, d, n⟩, z⟩

theorem KeepsMotor_inv (s t : State) (hk : KeepsMotor s t) (h : DriveInv s) : DriveInv t := by
  obtain ⟨-, k2, -, k4, -, -, -, k8, k9, k10, k11, k12, k13, k14⟩ := hk
  obtain ⟨⟨u, d, n⟩, z⟩ := h
  simp only [DriveInv, HBridge, k2, k4, k8, k9, k10, k11, k12, k13]
  exact ⟨⟨u, d, n⟩, fun hd => ⟨(z hd).1, k14 (z hd).2⟩⟩

theorem Reachable_inv (b : Board) (s : State) (h : Reachable b s) : DriveInv s := by
  refine Reachable_invariant b DriveInv ?_ ?_ ?_ ?_ ?_ motor_adjust_rpm_inv KeepsMotor_inv s h
  · intro t
    simp [DriveInv, HBridge, motor_stop]
  · intro tick sp t
    simp [DriveInv, HBridge, motor_up, motor_stop]
  · intro tick sp t
    simp [DriveInv, HBridge, motor_down, motor_stop]
  · intro s l i j c hs
    exact hs
  · intro t ht
    exact ht

/-- The state of the stopped motor of the scenario for C9 is reachable. -/
theorem stopped_again_reachable :
    Reachable sample_board (motor_process 7 (after_command up_at_top_state 0x0a 0xcc)) := by
  have h1 : Reachable sample_board started := Reachable.init (boot sample_board)
  have c1 : handle_command 0 0 started (frame 0x0a 0xdd) (fun _ => 0) 0 0
      = some ⟨after_command started 0x0a 0xdd, fun _ => 0, 0, 1⟩ := by
    rw [handle_command_frame]; rfl
  have h2 := Reachable.process 0 (Reachable.command 0 0 _ _ 0 0 h1 c1)
  have c2 : handle_command 0 0 up_at_top_state (frame 0x0a 0xcc) (fun _ => 0) 0 0
      = some ⟨after_command up_at_top_state 0x0a 0xcc, fun _ => 0, 0, 1⟩ := by
    rw [handle_command_frame]; rfl
  exact Reachable.process 7 (Reachable.command 0 0 _ _ 0 0 h2 c2)

/-- The state `up_at_top_state` is reachable. -/
theorem up_at_top_reachable : Reachable sample_board up_at_top_state := by
  have h1 : Reachable sample_board started := Reachable.init (boot sample_board)
  have c1 : handle_command 0 0 started (frame 0x0a 0xdd) (fun _ => 0) 0 0
      = some ⟨after_command started 0x0a 0xdd, fun _ => 0, 0, 1⟩ := by
    rw [handle_command_frame]; rfl
  exact Reachable.process 0 (Reachable.command 0 0 _ _ 0 0 h1 c1)

/-- The state `down_from_top_state` is reachable. -/
theorem down_from_top_reachable : Reachable sample_board down_from_top_state := by
  have h1 : Reachable sample_board started := Reachable.init (boot sample_board)
  have c1 : handle_command 0 0 started (frame 0x0a 0xee) (fun _ => 0) 0 0
      = some ⟨after_command started 0x0a 0xee, fun _ => 0, 0, 1⟩ := by
    rw [handle_command_frame]; rfl
  exact Reachable.process 0 (Reachable.command 0 0 _ _ 0 0 h1 c1)

/-! ## C9 -/

/-- C9: in every state reachable from `motor_init` by any sequence of
`motor_process`, `handle_command` (any frame), `hall_sensor_callback` (any sensor),
`motor_stall_check` (any tick value), `motor_adjust_rpm`, `motor_stop`, `motor_up`
and `motor_down`, status `Stopped` implies direction `None`, `curr_pwm = 0` and
`target_speed = 0`. -/
theorem C9_stopped_is_idle (b : Board) (s : State) (h : Reachable b s)
    (hst : s.status = Stopped) :
    s.direction = motor_direction.None ∧ s.curr_pwm = 0 ∧ s.target_speed = 0 :=
  Reachable_idle b s h hst

/-- C9 at the state reached by `motor_init`, `CMD_UP`, `motor_process` (the motor
runs) and then `CMD_STOP`, `motor_process` (the motor is stopped again). -/
theorem C9_stopped_is_idle_witness :
    (motor_process 7 (after_command up_at_top_state 0x0a 0xcc)).status = Stopped ∧
    (motor_process 7 (after_command up_at_top_state 0x0a 0xcc)).direction
      = motor_direction.None ∧
    (motor_process 7 (after_command up_at_top_state 0x0a 0xcc)).curr_pwm = 0 ∧
    (motor_process 7 (after_command up_at_top_state 0x0a 0xcc)).target_speed = 0 :=
  ⟨by decide,
    C9_stopped_is_idle sample_board (motor_process 7 (after_command up_at_top_state 0x0a 0xcc))
      stopped_again_reachable (by decide)⟩

/-! ## C20 -/

/-- C20: in every state reachable from `motor_init` by any sequence of
`motor_process`, `handle_command`, `hall_sensor_callback`, `motor_stall_check`,
`motor_adjust_rpm`, `motor_stop`, `motor_up` and `motor_down`, at most one side of
the H-bridge is energised. With direction `Up` only the LOW2 PWM channel and the
HIGH_1 gate are on, `CCR4 = curr_pwm` and `CCR1 = 0`; with direction `Down` only
the LOW1 PWM channel and the HIGH_2 gate are on, `CCR1 = curr_pwm` and `CCR4 = 0`;
with direction `None` both channels are stopped, both gates reset and both
compare registers 0. The two high-side gates are never set together. -/
theorem C20_h_bridge_exclusive (b : Board) (s : State) (h : Reachable b s) :
    (s.direction = Up →
      s.low2_pwm = true ∧ s.high1_gate = true ∧ s.low1_pwm = false ∧ s.high2_gate = false ∧
      s.CCR4 = s.curr_pwm ∧ s.CCR1 = 0) ∧
    (s.direction = Down →
      s.low1_pwm = true ∧ s.high2_gate = true ∧ s.low2_pwm = false ∧ s.high1_gate = false ∧
      s.CCR1 = s.curr_pwm ∧ s.CCR4 = 0) ∧
    (s.direction = motor_direction.None →
      s.low1_pwm = false ∧ s.low2_pwm = false ∧ s.high1_gate = false ∧ s.high2_gate = false ∧
      s.CCR1 = 0 ∧ s.CCR4 = 0) ∧
    ¬ (s.high1_gate = true ∧ s.high2_gate = true) := by
  obtain ⟨⟨u, d, n⟩, -⟩ := Reachable_inv b s h
  refine ⟨u, d, n, ?_⟩
  rintro ⟨g1, g2⟩
  rcases hd : s.direction with _ | _ | _
  · have := n hd
    simp_all
  · have := u hd
    simp_all
  · have := d hd
    simp_all

/-- C20 at a motor that runs up, one that runs down, and the stopped motor after
start-up. -/
theorem C20_h_bridge_exclusive_witness :
    (up_at_top_state.direction = Up ∧ up_at_top_state.low2_pwm = true ∧
      up_at_top_state.high1_gate = true ∧ up_at_top_state.low1_pwm = false ∧
      up_at_top_state.high2_gate = false ∧ up_at_top_state.CCR4 = up_at_top_state.curr_pwm ∧
      up_at_top_state.CCR1 = 0) ∧
    (down_from_top_state.direction = Down ∧ down_from_top_state.low1_pwm = true ∧
      down_from_top_state.high2_gate = true ∧ down_from_top_state.low2_pwm = false ∧
      down_from_top_state.high1_gate = false ∧
      down_from_top_state.CCR1 = down_from_top_state.curr_pwm ∧
      down_from_top_state.CCR4 = 0) ∧
    (started.direction = motor_direction.None ∧ started.low1_pwm = false ∧
      started.low2_pwm = false ∧ started.high1_gate = false ∧ started.high2_gate = false ∧
      started.CCR1 = 0 ∧ started.CCR4 = 0) :=
  ⟨⟨by decide, (C20_h_bridge_exclusive sample_board up_at_top_state up_at_top_reachable).1
      (by decide)⟩,
    ⟨by decide,
      (C20_h_bridge_exclusive sample_board down_from_top_state down_from_top_reachable).2.1
        (by decide)⟩,
    ⟨by decide,
      (C20_h_bridge_exclusive sample_board started (Reachable.init (boot sample_board))).2.2.1
        (by decide)⟩⟩

/-! ## C11 -/

/-- C11: an unknown command is a silent no-op. For every state and every frame whose
16 bit command is none of the case labels of the `switch` and whose first command
byte is neither `0x20` nor `0xdd` nor has the high nibble `0x1`, `handle_command`
returns 1 and leaves the globals, `tx_buffer` and `*tx_bytes` as they are. -/
theorem C11_unknown_command_ignored (voltage current : Nat) (s : State) (rx tx : Nat → Nat)
    (burstindex tx_bytes : Nat)
    (h1 : ((rx 3 % 2 ^ 8) <<< 8 + rx 4 % 2 ^ 8) % 2 ^ 16 ∉ handled_commands)
    (h2 : rx 3 % 2 ^ 8 ≠ 0x20) (h3 : rx 3 % 2 ^ 8 ≠ 0xdd)
    (h4 : (rx 3 % 2 ^ 8) &&& 0xf0 ≠ 0x10) :
    handle_command voltage current s rx tx burstindex tx_bytes = some ⟨s, tx, tx_bytes, 1⟩ := by
  simp only [handle_command]
  rw [dispatch_unhandled _ _ _ _ _ _ _ _ h1]
  simp only [one_byte_command, if_neg h2, if_neg h3, if_neg h4]

/-- C11 at the frames with the commands `0xcccd`, `0xccce`, `0xccdd` and `0x0000`,
in the state after start-up. -/
theorem C11_unknown_command_ignored_witness :
    handle_command 0 0 started (frame 0xcc 0xcd) (fun _ => 0) 0 0 = some ⟨started, fun _ => 0, 0, 1⟩ ∧
    handle_command 0 0 started (frame 0xcc 0xce) (fun _ => 0) 0 0 = some ⟨started, fun _ => 0, 0, 1⟩ ∧
    handle_command 0 0 started (frame 0xcc 0xdd) (fun _ => 0) 0 0 = some ⟨started, fun _ => 0, 0, 1⟩ ∧
    handle_command 0 0 started (frame 0x00 0x00) (fun _ => 0) 0 0 = some ⟨started, fun _ => 0, 0, 1⟩ :=
  ⟨C11_unknown_command_ignored 0 0 started (frame 0xcc 0xcd) (fun _ => 0) 0 0
      (by decide) (by decide) (by decide) (by decide),
    C11_unknown_command_ignored 0 0 started (frame 0xcc 0xce) (fun _ => 0) 0 0
      (by decide) (by decide) (by decide) (by decide),
    C11_unknown_command_ignored 0 0 started (frame 0xcc 0xdd) (fun _ => 0) 0 0
      (by decide) (by decide) (by decide) (by decide),
    C11_unknown_command_ignored 0 0 started (frame 0x00 0x00) (fun _ => 0) 0 0
      (by decide) (by decide) (by decide) (by decide)⟩

/-! ## C12 -/

/-- C12: `CMD_DOWN_17` clamps the target at the soft limit. For every state the frame
`0x0a 0x0e` makes `handle_command` return 1 with `target_location` at most
`soft_lower_limit`, equal to `min (old target_location + 8) soft_lower_limit`
whenever `old target_location + 8 < 2 ^ 32`, and with the deferred command
`MotorDown`; 8 is `DEG_TO_LOCATION(17)`. -/
theorem C12_down_17_clamps (voltage current burstindex tx_bytes : Nat) (tx : Nat → Nat)
    (s : State) :
    DEG_TO_LOCATION 17 = 8 ∧
    ∃ r, handle_command voltage current s (frame 0x0a 0x0e) tx burstindex tx_bytes = some r ∧
      r.ret = 1 ∧
      r.state.target_location ≤ s.soft_lower_limit ∧
      (s.target_location + 8 < 2 ^ 32 →
        r.state.target_location = min (s.target_location + 8) s.soft_lower_limit) ∧
      r.state.command = MotorDown := by
  have d : DEG_TO_LOCATION 17 = 8 := by decide
  refine ⟨d, ⟨cmd_down_17 s, tx, tx_bytes, 1⟩, ?_, rfl, ?_, ?_, rfl⟩
  · rw [handle_command_frame]
    have c : (((0x0a % 2 ^ 8) <<< 8) + 0x0e % 2 ^ 8) % 2 ^ 16 = 0x0a0e := by decide
    rw [c]
    simp [dispatch]
  · simp only [cmd_down_17, d]
    split_ifs with h
    · exact le_rfl
    · omega
  · intro hs
    simp only [cmd_down_17, d]
    rw [Nat.mod_eq_of_lt hs]
    split_ifs with h
    · omega
    · omega

/-- C12 at the targets 2590 and 100 with the soft limit 2596: the new targets are
2596 and 108. -/
theorem C12_down_17_clamps_witness :
    (∃ r, handle_command 0 0 { started with target_location := 2590 } (frame 0x0a 0x0e)
        (fun _ => 0) 0 0 = some r ∧ r.state.target_location = 2596 ∧
        r.state.command = MotorDown) ∧
    (∃ r, handle_command 0 0 { started with target_location := 100 } (frame 0x0a 0x0e)
        (fun _ => 0) 0 0 = some r ∧ r.state.target_location = 108 ∧
        r.state.command = MotorDown) := by
  obtain ⟨-, r1, a1, -, -, a2, a3⟩ :=
    C12_down_17_clamps 0 0 0 0 (fun _ => 0) { started with target_location := 2590 }
  obtain ⟨-, r2, b1, -, -, b2, b3⟩ :=
    C12_down_17_clamps 0 0 0 0 (fun _ => 0) { started with target_location := 100 }
  exact ⟨⟨r1, a1, a2 (by decide), a3⟩, ⟨r2, b1, b2 (by decide), b3⟩⟩

/-! ## C13 -/

/-- C13: `motor_stop` is idempotent, and after it the status is `Stopped`, the
direction `None`, `curr_pwm`, `hall_interval` and `target_speed` are 0, both compare
registers are 0, both PWM channels are stopped and both high-side gates reset,
while `location`, `target_location`, both limits and `resetting` are those of
before. -/
theorem C13_motor_stop_idempotent (s : State) :
    motor_stop (motor_stop s) = motor_stop s ∧
    (motor_stop s).status = Stopped ∧ (motor_stop s).direction = motor_direction.None ∧
    (motor_stop s).curr_pwm = 0 ∧ (motor_stop s).hall_interval = 0 ∧
    (motor_stop s).target_speed = 0 ∧ (motor_stop s).CCR1 = 0 ∧ (motor_stop s).CCR4 = 0 ∧
    (motor_stop s).low1_pwm = false ∧ (motor_stop s).low2_pwm = false ∧
    (motor_stop s).high1_gate = false ∧ (motor_stop s).high2_gate = false ∧
    (motor_stop s).location = s.location ∧
    (motor_stop s).target_location = s.target_location ∧
    (motor_stop s).soft_lower_limit = s.soft_lower_limit ∧
    (motor_stop s).hard_lower_limit = s.hard_lower_limit ∧
    (motor_stop s).resetting = s.resetting :=
  ⟨rfl, rfl, rfl, rfl, rfl, rfl, rfl, rfl, rfl, rfl, rfl, rfl, rfl, rfl, rfl, rfl, rfl⟩

/-! ## C14 -/

/-- The value of `location_to_position100` between 0 and the soft limit: the
product `100 * location` is reduced modulo `2 ^ 32` before the division. -/
theorem location_to_position100_inside (s : State) (L : ℕ) (hr : s.resetting = 0)
    (hS : 0 < s.soft_lower_limit) (hL : s.location = (L : ℤ)) (h1 : L ≤ s.soft_lower_limit)
    (h2 : L < 2 ^ 31) :
    location_to_position100 s = some (((100 * L) % 2 ^ 32 / s.soft_lower_limit : ℕ) : ℚ) ∧
    (100 * L) % 2 ^ 32 / s.soft_lower_limit ≤ 100 := by
  have hq : (100 * L) % 2 ^ 32 / s.soft_lower_limit ≤ 100 := by
    apply Nat.div_le_of_le_mul
    omega
  refine ⟨?_, hq⟩
  unfold location_to_position100
  rw [if_neg (by simp [hr]), if_neg (by rw [hL]; omega), hL, u32_natCast L (by omega),
    if_neg (by omega), if_neg (by omega)]
  rw [show (100 : ℤ) * (L : ℤ) = ((100 * L : ℕ) : ℤ) by push_cast; ring,
    u32_wrap32_natCast, f32_natCast _ (by omega)]

/-- The range of `location_to_position100` for a soft limit above 0, not
resetting: the result lies in [0, 100], it is 0 for a negative location and 100
for a location above the soft limit. -/
theorem location_to_position100_range (s : State) (hr : s.resetting = 0)
    (hS : 0 < s.soft_lower_limit) (hlo : -2 ^ 31 ≤ s.location) (hhi : s.location < 2 ^ 31) :
    ∃ p, location_to_position100 s = some p ∧ 0 ≤ p ∧ p ≤ 100 ∧
      (s.location < 0 → p = 0) ∧ ((s.soft_lower_limit : ℤ) < s.location → p = 100) := by
  by_cases hneg : s.location < 0
  · refine ⟨0, ?_, le_rfl, by norm_num, fun _ => rfl, fun h => ?_⟩
    · simp [location_to_position100, hr, hneg]
    · omega
  · obtain ⟨L, hL⟩ : ∃ L : ℕ, s.location = (L : ℤ) := ⟨s.location.toNat, by omega⟩
    by_cases hab : s.soft_lower_limit < L
    · refine ⟨100, ?_, by norm_num, le_rfl, fun h => absurd h hneg, fun _ => rfl⟩
      unfold location_to_position100
      rw [if_neg (by simp [hr]), if_neg hneg, hL, u32_natCast L (by omega), if_pos hab]
    · obtain ⟨e, hq⟩ := location_to_position100_inside s L hr hS hL (by omega) (by omega)
      refine ⟨_, e, by positivity, by exact_mod_cast hq, fun h => absurd h hneg, fun h => ?_⟩
      omega

/-- The function `location_to_position100` is monotonic between 0 and the soft
limit where the product `100 * location` stays inside 32 bits. -/
theorem location_to_position100_monotone (s1 s2 : State) (hr1 : s1.resetting = 0)
    (hr2 : s2.resetting = 0) (hS : 0 < s1.soft_lower_limit)
    (hSS : s2.soft_lower_limit = s1.soft_lower_limit)
    (hS2 : 100 * s1.soft_lower_limit < 2 ^ 32) (h0 : 0 ≤ s1.location)
    (h12 : s1.location ≤ s2.location) (h2 : s2.location ≤ s1.soft_lower_limit) :
    ∃ p1 p2, location_to_position100 s1 = some p1 ∧ location_to_position100 s2 = some p2 ∧
      p1 ≤ p2 := by
  obtain ⟨L1, hL1⟩ : ∃ L : ℕ, s1.location = (L : ℤ) := ⟨s1.location.toNat, by omega⟩
  obtain ⟨L2, hL2⟩ : ∃ L : ℕ, s2.location = (L : ℤ) := ⟨s2.location.toNat, by omega⟩
  obtain ⟨e1, -⟩ := location_to_position100_inside s1 L1 hr1 hS hL1 (by omega) (by omega)
  obtain ⟨e2, -⟩ := location_to_position100_inside s2 L2 hr2 (by omega) hL2 (by omega) (by omega)
  refine ⟨_, _, e1, e2, ?_⟩
  rw [hSS, Nat.mod_eq_of_lt (by omega), Nat.mod_eq_of_lt (by omega)]
  exact_mod_cast Nat.div_le_div_right (by omega)

/-- C14 (refuted on the code): `location_to_position100` is not monotonic over
[0, S] for every soft limit S, because the product `100*location` is formed in 32
bits. With soft limit 42949673, not resetting, location 42949672 gives
`(4294967200 mod 2 ^ 32) / 42949673 = 99` and the larger location 42949673 gives
`(4294967300 mod 2 ^ 32) / 42949673 = 4 / 42949673 = 0`. -/
theorem C14_not_monotone_past_32_bits :
    (far_state 42949672).soft_lower_limit = 42949673 ∧
    (far_state 42949673).soft_lower_limit = 42949673 ∧
    (far_state 42949672).resetting = 0 ∧ (far_state 42949673).resetting = 0 ∧
    (far_state 42949672).location = 42949672 ∧ (far_state 42949673).location = 42949673 ∧
    location_to_position100 (far_state 42949672) = some 99 ∧
    location_to_position100 (far_state 42949673) = some 0 := by
  have a := (location_to_position100_inside (far_state 42949672) 42949672 rfl (by decide) rfl
    (by decide) (by decide)).1
  have b := (location_to_position100_inside (far_state 42949673) 42949673 rfl (by decide) rfl
    (by decide) (by decide)).1
  have ea : (100 * 42949672) % 2 ^ 32 / (far_state 42949672).soft_lower_limit = 99 := by decide
  have eb : (100 * 42949673) % 2 ^ 32 / (far_state 42949673).soft_lower_limit = 0 := by decide
  rw [ea] at a
  rw [eb] at b
  refine ⟨rfl, rfl, rfl, rfl, rfl, rfl, ?_, ?_⟩
  · simpa using a
  · simpa using b

/-! ## C15 -/

/-- C15: while `resetting` is not zero, `location_to_position100` returns exactly 50
for every location and every soft limit, zero included, and the `CMD_GET_STATUS`
query returns 1 with an eight byte reply whose position byte `tx_buffer[6]` is 50. -/
theorem C15_resetting_reports_50 (voltage current burstindex tx_bytes : Nat) (tx : Nat → Nat)
    (s : State) (h : s.resetting ≠ 0) :
    location_to_position100 s = some 50 ∧
    ∃ r, handle_command voltage current s (frame 0xcc 0xcc) tx burstindex tx_bytes = some r ∧
      r.ret = 1 ∧ r.tx_bytes = 8 ∧ r.tx_buffer 6 = 50 := by
  have h50 : location_to_position100 s = some 50 := by
    simp [location_to_position100, h]
  obtain ⟨r, e, -, e1, e2, -, -, -, -, -, -, e6, -⟩ :=
    status_reply_bytes voltage current burstindex tx_bytes tx s 50 h50
  refine ⟨h50, r, e, e1, e2, ?_⟩
  rw [e6]
  have : f2u8 (50 : ℚ) = 50 := by
    have := f2u8_natCast 50 (by norm_num)
    simpa using this
  rw [this]
  rfl

/-- C15 at the state after `CMD_RESET_SOFT_LIMIT` (location 0) and at a resetting
module with soft limit 0 and location 99999. -/
theorem C15_resetting_reports_50_witness :
    (resetting_state.resetting = 1 ∧ resetting_state.location = 0 ∧
      location_to_position100 resetting_state = some 50 ∧
      ∃ r, handle_command 0 0 resetting_state (frame 0xcc 0xcc) (fun _ => 0) 0 0 = some r ∧
        r.ret = 1 ∧ r.tx_bytes = 8 ∧ r.tx_buffer 6 = 50) ∧
    (resetting_far_state.resetting = 1 ∧ resetting_far_state.location = 99999 ∧
      resetting_far_state.soft_lower_limit = 0 ∧
      location_to_position100 resetting_far_state = some 50 ∧
      ∃ r, handle_command 0 0 resetting_far_state (frame 0xcc 0xcc) (fun _ => 0) 0 0 = some r ∧
        r.ret = 1 ∧ r.tx_bytes = 8 ∧ r.tx_buffer 6 = 50) :=
  ⟨⟨by decide, by decide,
      C15_resetting_reports_50 0 0 0 0 (fun _ => 0) resetting_state (by decide)⟩,
    ⟨by decide, by decide, by decide,
      C15_resetting_reports_50 0 0 0 0 (fun _ => 0) resetting_far_state (by decide)⟩⟩

/-! ## C16 -/

/-- The stop condition of `process_location` where it agrees with the comparison
of integers: moving up when the new location is not negative, and moving down
always. -/
theorem process_location_stops (s : State) :
    (s.direction = Up → 0 ≤ wrap32 (s.location - 1) →
      wrap32 (s.location - 1) ≤ (s.target_location : ℤ) →
      (process_location s).status = Stopped ∧
      (process_location s).direction = motor_direction.None) ∧
    (s.direction = Down → (s.target_location : ℤ) ≤ wrap32 (s.location + 1) →
      (process_location s).status = Stopped ∧
      (process_location s).direction = motor_direction.None) := by
  constructor
  · intro hd h0 h1
    have hu : u32 (wrap32 (s.location - 1)) ≤ s.target_location := by
      unfold u32 wrap32 at *
      omega
    simp [process_location, hd, hu, motor_stop]
  · intro hd h1
    have hu : u32 (wrap32 (s.location + 1)) ≥ s.target_location := by
      unfold u32 wrap32 at *
      omega
    simp [process_location, hd, hu, motor_stop]

/-- C16 (refuted on the code): the stop condition compares `location` with
`target_location` as unsigned numbers. In the state reached by `motor_init`,
`CMD_UP` and `motor_process` the motor moves up, not resetting, with location 0
and target 0; a primary hall tick makes the location -1, which is below the
target, and the motor keeps moving up. -/
theorem C16_stop_condition_unsigned :
    up_at_top_state.status = Moving ∧ up_at_top_state.direction = Up ∧
    up_at_top_state.resetting = 0 ∧ up_at_top_state.location = 0 ∧
    up_at_top_state.target_location = 0 ∧
    (hall_sensor_callback sample_board sample_board.HALL_1_SENSOR up_at_top_state).location
      = -1 ∧
    (hall_sensor_callback sample_board sample_board.HALL_1_SENSOR up_at_top_state).status
      = Moving ∧
    (hall_sensor_callback sample_board sample_board.HALL_1_SENSOR up_at_top_state).direction
      = Up ∧
    (hall_sensor_callback sample_board sample_board.HALL_1_SENSOR up_at_top_state).location
      ≤ ((hall_sensor_callback sample_board sample_board.HALL_1_SENSOR
          up_at_top_state).target_location : ℤ) := by
  decide

/-! ## C17 -/

/-- C17: the effect of a detected stall. For every state with status `Moving`,
`(tick - movement_started_timestamp) mod 2 ^ 32` above `MOVEMENT_GRACE_PERIOD` and
the incremented counter `hall_idle_time + 1` above `HALL_TIMEOUT`, one call of
`motor_stall_check` yields `location = 0`, `resetting = 0`, status `Stopped`,
direction `None`, `hall_interval = 0`, `hall_idle_time = 0`, `curr_pwm = 0` and
`target_speed = 0`, whatever the location, the direction and `resetting` were,
leaves `target_location` and both limits unchanged, and every further call of
`motor_stall_check` from the resulting state changes nothing. The counter is a
`uint32_t`, so its incremented value is `(hall_idle_time + 1) mod 2 ^ 32`; this is
`hall_idle_time + 1` for every value of the counter below `2 ^ 32 - 1`, and the
counter, which every start, hall tick and stall sets to 0, stays far below that
(`stall_checks_run`). -/
theorem C17_stall_effect (b : Board) (tick : Nat) (s : State) (hm : s.status = Moving)
    (hg : ((tick : ℤ) - s.movement_started_timestamp) % 2 ^ 32 > b.MOVEMENT_GRACE_PERIOD)
    (hi : (s.hall_idle_time + 1) % 2 ^ 32 > b.HALL_TIMEOUT) :
    (motor_stall_check b tick s).location = 0 ∧
    (motor_stall_check b tick s).resetting = 0 ∧
    (motor_stall_check b tick s).status = Stopped ∧
    (motor_stall_check b tick s).direction = motor_direction.None ∧
    (motor_stall_check b tick s).hall_interval = 0 ∧
    (motor_stall_check b tick s).hall_idle_time = 0 ∧
    (motor_stall_check b tick s).curr_pwm = 0 ∧
    (motor_stall_check b tick s).target_speed = 0 ∧
    (motor_stall_check b tick s).target_location = s.target_location ∧
    (motor_stall_check b tick s).soft_lower_limit = s.soft_lower_limit ∧
    (motor_stall_check b tick s).hard_lower_limit = s.hard_lower_limit ∧
    ∀ tick2, motor_stall_check b tick2 (motor_stall_check b tick s)
      = motor_stall_check b tick s := by
  have hg2 : (tick + 2 ^ 32 - s.movement_started_timestamp % 2 ^ 32) % 2 ^ 32
      > b.MOVEMENT_GRACE_PERIOD := by omega
  have e : motor_stall_check b tick s
      = { motor_stop { s with hall_idle_time := (s.hall_idle_time + 1) % 2 ^ 32,
                              hall_interval := 0, resetting := 0, location := 0 }
          with hall_idle_time := 0 } := by
    simp only [motor_stall_check, hm, if_true, if_pos hg2, if_pos hi, motor_stopped]
    by_cases hr : s.resetting = 0 <;> simp [hm, hr, motor_stop]
  rw [e]
  refine ⟨rfl, rfl, rfl, rfl, rfl, rfl, rfl, rfl, rfl, rfl, rfl, fun tick2 => ?_⟩
  simp [motor_stall_check, motor_stop]

/-- C17 at a motor started at tick 0 that is on its way up from location 200 and has
seen no hall tick for 300 ms, checked at tick 1000: the counter plus one is 301,
above the hall timeout of 300. -/
theorem C17_stall_effect_witness :
    (stalled_state.status = Moving ∧ stalled_state.location = 200 ∧
      stalled_state.direction = Up ∧
      stalled_state.hall_idle_time + 1 > sample_board.HALL_TIMEOUT) ∧
    (motor_stall_check sample_board 1000 stalled_state).location = 0 ∧
    (motor_stall_check sample_board 1000 stalled_state).resetting = 0 ∧
    (motor_stall_check sample_board 1000 stalled_state).status = Stopped ∧
    (motor_stall_check sample_board 1000 stalled_state).direction = motor_direction.None ∧
    (motor_stall_check sample_board 1000 stalled_state).hall_interval = 0 ∧
    (motor_stall_check sample_board 1000 stalled_state).hall_idle_time = 0 ∧
    (motor_stall_check sample_board 1000 stalled_state).curr_pwm = 0 ∧
    (motor_stall_check sample_board 1000 stalled_state).target_speed = 0 ∧
    (motor_stall_check sample_board 1000 stalled_state).target_location
      = stalled_state.target_location ∧
    (motor_stall_check sample_board 1000 stalled_state).soft_lower_limit
      = stalled_state.soft_lower_limit ∧
    (motor_stall_check sample_board 1000 stalled_state).hard_lower_limit
      = stalled_state.hard_lower_limit ∧
    ∀ tick2, motor_stall_check sample_board tick2
        (motor_stall_check sample_board 1000 stalled_state)
      = motor_stall_check sample_board 1000 stalled_state :=
  ⟨⟨by decide, by decide, by decide, by decide⟩,
    C17_stall_effect sample_board 1000 stalled_state (by decide) (by decide) (by decide)⟩

/-- The idle counter in a run of the stall detector. From a moving motor with the
counter at 0 whose start was at tick `t0`, with one call of `motor_stall_check`
per millisecond and no hall tick: for `k` up to the larger of
`MOVEMENT_GRACE_PERIOD` and `HALL_TIMEOUT` the `k`-th call leaves the counter at
`k` and nothing else changed; every later call finds the motor stopped by the
stall, with the counter at 0 and the location at 0. So the counter never comes
near `2 ^ 32 - 1`. -/
theorem stall_checks_run (b : Board) (t0 : Nat) (s : State) (hm : s.status = Moving)
    (h0 : s.hall_idle_time = 0) (hts : s.movement_started_timestamp = t0 % 2 ^ 32)
    (hg : b.MOVEMENT_GRACE_PERIOD + 1 < 2 ^ 32) (ht : b.HALL_TIMEOUT + 1 < 2 ^ 32) (k : Nat) :
    (k ≤ max b.MOVEMENT_GRACE_PERIOD b.HALL_TIMEOUT →
      stall_checks b t0 k s = { s with hall_idle_time := k }) ∧
    (max b.MOVEMENT_GRACE_PERIOD b.HALL_TIMEOUT < k →
      (stall_checks b t0 k s).status = Stopped ∧
      (stall_checks b t0 k s).hall_idle_time = 0 ∧
      (stall_checks b t0 k s).location = 0) := by
  induction k with
  | zero =>
    refine ⟨fun _ => ?_, fun h => absurd h (by omega)⟩
    simp only [stall_checks]
    rw [← h0]
  | succ k ih =>
    obtain ⟨ih1, ih2⟩ := ih
    simp only [stall_checks]
    by_cases hk : k ≤ max b.MOVEMENT_GRACE_PERIOD b.HALL_TIMEOUT
    · rw [ih1 hk]
      have hlt : k + 1 < 2 ^ 32 := by omega
      have hd : (t0 + (k + 1) + 2 ^ 32 - (t0 % 2 ^ 32) % 2 ^ 32) % 2 ^ 32 = k + 1 := by omega
      have hi : (k + 1) % 2 ^ 32 = k + 1 := Nat.mod_eq_of_lt hlt
      constructor
      · intro hk1
        have hno : ¬ (k + 1 > b.MOVEMENT_GRACE_PERIOD ∧ k + 1 > b.HALL_TIMEOUT) := by omega
        simp only [motor_stall_check, hm, if_true, hts, hd, hi]
        by_cases a : k + 1 > b.MOVEMENT_GRACE_PERIOD
        · have c : ¬ k + 1 > b.HALL_TIMEOUT := fun h => hno ⟨a, h⟩
          rw [if_pos a, if_neg c]
        · rw [if_neg a]
      · intro hk1
        have a : k + 1 > b.MOVEMENT_GRACE_PERIOD := by omega
        have c : k + 1 > b.HALL_TIMEOUT := by omega
        simp only [motor_stall_check, hm, if_true, hts, hd, hi, if_pos a, if_pos c,
          motor_stopped]
        by_cases hr : s.resetting = 0 <;> simp [hm, hr, motor_stop]
    · obtain ⟨i1, i2, i3⟩ := ih2 (by omega)
      refine ⟨fun h => absurd h (by omega), fun _ => ?_⟩
      have e : motor_stall_check b (t0 + (k + 1)) (stall_checks b t0 k s)
          = stall_checks b t0 k s := by
        simp [motor_stall_check, i1]
      rw [e]
      exact ⟨i1, i2, i3⟩

/-- The run of the stall detector from a motor started at tick 0 on its way up from
location 200, with a grace period of 500 ms and a hall timeout of 300 ms: after 500
calls the counter is 500 and the motor still moves; the call at tick 501 declares
the stall. -/
theorem stall_checks_run_witness :
    stall_checks sample_board 0 500 up_run_state = { up_run_state with hall_idle_time := 500 } ∧
    (stall_checks sample_board 0 501 up_run_state).status = Stopped ∧
    (stall_checks sample_board 0 501 up_run_state).hall_idle_time = 0 ∧
    (stall_checks sample_board 0 501 up_run_state).location = 0 :=
  ⟨(stall_checks_run sample_board 0 up_run_state (by decide) (by decide) (by decide)
      (by decide) (by decide) 500).1 (by decide),
    (stall_checks_run sample_board 0 up_run_state (by decide) (by decide) (by decide)
      (by decide) (by decide) 501).2 (by decide)⟩

/-! ## C18 -/

/-- The measured speed of `motor_adjust_rpm`: `317 / hall_interval`, or 0 when no
interval has been measured; 317 is `60*1000/GEAR_RATIO`. -/
theorem measured_speed (s : State) :
    f2u32 (get_rpm s) = if s.hall_interval ≠ 0 then 317 / s.hall_interval else 0 := by
  unfold get_rpm
  have g : 60 * 1000 / GEAR_RATIO = 317 := by decide
  split_ifs with h
  · rw [g]
    have hle : 317 / s.hall_interval ≤ 317 := Nat.div_le_self _ _
    rw [f32_natCast _ (by omega), f2u32_natCast _ (by omega)]
  · simp [f2u32, truncQ]

/-- C18: one call of `motor_adjust_rpm`, with the measured speed `v` the value of
`get_rpm()` truncated to an integer. If `v < target_speed` and `curr_pwm < 255` the
duty becomes `curr_pwm + 1`; if `v > target_speed` and `curr_pwm > 0` it becomes
`curr_pwm - 1`; the new duty is also written to `CCR4` when the direction is `Up`
and to `CCR1` otherwise, and nothing else changes. In every other case the state
is left as it is. So the duty changes by at most 1 and stays in 0..255. -/
theorem C18_single_step_regulator (s : State) :
    (f2u32 (get_rpm s) < s.target_speed ∧ s.curr_pwm < 255 →
      motor_adjust_rpm s =
        if s.direction = Up then { s with curr_pwm := s.curr_pwm + 1, CCR4 := s.curr_pwm + 1 }
        else { s with curr_pwm := s.curr_pwm + 1, CCR1 := s.curr_pwm + 1 }) ∧
    (f2u32 (get_rpm s) > s.target_speed ∧ s.curr_pwm > 0 →
      motor_adjust_rpm s =
        if s.direction = Up then { s with curr_pwm := s.curr_pwm - 1, CCR4 := s.curr_pwm - 1 }
        else { s with curr_pwm := s.curr_pwm - 1, CCR1 := s.curr_pwm - 1 }) ∧
    (¬ (f2u32 (get_rpm s) < s.target_speed ∧ s.curr_pwm < 255) →
      ¬ (f2u32 (get_rpm s) > s.target_speed ∧ s.curr_pwm > 0) →
      motor_adjust_rpm s = s) ∧
    (motor_adjust_rpm s).curr_pwm ≤ s.curr_pwm + 1 ∧
    s.curr_pwm ≤ (motor_adjust_rpm s).curr_pwm + 1 ∧
    (s.curr_pwm ≤ 255 → (motor_adjust_rpm s).curr_pwm ≤ 255) := by
  obtain ⟨h1, h2, h3⟩ := motor_adjust_rpm_cases s
  refine ⟨h1, h2, h3, ?_⟩
  by_cases a : f2u32 (get_rpm s) < s.target_speed ∧ s.curr_pwm < 255
  · rw [h1 a]
    split_ifs
    · exact ⟨le_rfl, by simp only; omega, fun _ => by simp only; omega⟩
    · exact ⟨le_rfl, by simp only; omega, fun _ => by simp only; omega⟩
  · by_cases c : f2u32 (get_rpm s) > s.target_speed ∧ s.curr_pwm > 0
    · rw [h2 c]
      split_ifs
      · exact ⟨by simp only; omega, by simp only; omega, fun _ => by simp only; omega⟩
      · exact ⟨by simp only; omega, by simp only; omega, fun _ => by simp only; omega⟩
    · rw [h3 a c]
      exact ⟨by omega, by omega, fun h => h⟩

/-- C18 at a motor that runs up with duty 80 and set-point 18: without a measured
interval the speed is 0 and the duty and `CCR4` become 81; with a hall interval of
10 ms the speed is 31 and they become 79; with a hall interval of 17 ms the speed
is 18 and nothing changes. -/
theorem C18_single_step_regulator_witness :
    (up_at_top_state.curr_pwm = 80 ∧ up_at_top_state.target_speed = 18 ∧
      up_at_top_state.direction = Up) ∧
    motor_adjust_rpm up_at_top_state = { up_at_top_state with curr_pwm := 81, CCR4 := 81 } ∧
    motor_adjust_rpm { up_at_top_state with hall_interval := 10 }
      = { up_at_top_state with hall_interval := 10, curr_pwm := 79, CCR4 := 79 } ∧
    motor_adjust_rpm { up_at_top_state with hall_interval := 17 }
      = { up_at_top_state with hall_interval := 17 } := by
  have v0 : f2u32 (get_rpm up_at_top_state) = 0 := by
    rw [measured_speed]; decide
  have v1 : f2u32 (get_rpm { up_at_top_state with hall_interval := 10 }) = 31 := by
    rw [measured_speed]; decide
  have v2 : f2u32 (get_rpm { up_at_top_state with hall_interval := 17 }) = 18 := by
    rw [measured_speed]; decide
  refine ⟨by decide, ?_, ?_, ?_⟩
  · rw [(C18_single_step_regulator up_at_top_state).1 (by rw [v0]; decide)]
    decide
  · rw [(C18_single_step_regulator { up_at_top_state with hall_interval := 10 }).2.1
      (by rw [v1]; decide)]
    decide
  · exact (C18_single_step_regulator { up_at_top_state with hall_interval := 17 }).2.2.1
      (by rw [v2]; decide) (by rw [v2]; decide)

/-! ## C19 -/

/-- The frame condition of `handle_command` wherever it returns: the return value
is 1 and `location`, `direction`, `status`, `curr_pwm`, `hall_interval`,
`hall_idle_time`, the start timestamp and the hardware outputs are unchanged. It
returns for every frame but the two status queries `0xcccc` and `0xccde` in a state
where `location_to_position100` divides by zero. -/
theorem handle_command_frame_condition (voltage current : Nat) (s : State)
    (rx tx : Nat → Nat) (burstindex tx_bytes : Nat) :
    (∀ r, handle_command voltage current s rx tx burstindex tx_bytes = some r →
      r.ret = 1 ∧ r.state.location = s.location ∧ r.state.direction = s.direction ∧
      r.state.status = s.status ∧ r.state.curr_pwm = s.curr_pwm ∧
      r.state.hall_interval = s.hall_interval ∧ r.state.hall_idle_time = s.hall_idle_time ∧
      r.state.movement_started_timestamp = s.movement_started_timestamp ∧
      r.state.low1_pwm = s.low1_pwm ∧ r.state.low2_pwm = s.low2_pwm ∧
      r.state.high1_gate = s.high1_gate ∧ r.state.high2_gate = s.high2_gate ∧
      r.state.CCR1 = s.CCR1 ∧ r.state.CCR4 = s.CCR4) ∧
    ((location_to_position100 s ≠ none ∨
      (((rx 3 % 2 ^ 8) <<< 8 + rx 4 % 2 ^ 8) % 2 ^ 16 ≠ 0xcccc ∧
        ((rx 3 % 2 ^ 8) <<< 8 + rx 4 % 2 ^ 8) % 2 ^ 16 ≠ 0xccde)) →
      ∃ r, handle_command voltage current s rx tx burstindex tx_bytes = some r) := by
  refine ⟨fun r hr => ?_, handle_command_returns voltage current s rx tx burstindex tx_bytes⟩
  obtain ⟨⟨k1, k2, k3, k4, k5, k6, k7, k8, k9, k10, k11, k12, k13, -⟩, k⟩ :=
    handle_command_keeps voltage current s rx tx burstindex tx_bytes r hr
  exact ⟨k, k1, k2, k3, k4, k5, k6, k7, k8, k9, k10, k11, k12, k13⟩

/-- C19 (refuted on the code): `handle_command` does not return 1 for every state and
every frame. In the state reached by `motor_init` and `CMD_SET_SOFT_LIMIT` at
location 0, the extended status query `0xcc 0xde` makes `location_to_position100`
divide by the soft limit 0, so `handle_command` has no return value. -/
theorem C19_no_return_value (voltage current burstindex tx_bytes : Nat) (tx : Nat → Nat) :
    zero_limit_state.soft_lower_limit = 0 ∧ zero_limit_state.location = 0 ∧
    zero_limit_state.resetting = 0 ∧
    (handle_command voltage current zero_limit_state (frame 0xcc 0xde) tx burstindex
      tx_bytes).map (fun r => r.ret) = none := by
  have h1 : zero_limit_state.soft_lower_limit = 0 := by decide
  have h2 : zero_limit_state.location = 0 := by decide
  have h3 : zero_limit_state.resetting = 0 := by decide
  have h4 : location_to_position100 zero_limit_state = none := by
    simp [location_to_position100, h1, h2, h3, u32]
  refine ⟨h1, h2, h3, ?_⟩
  rw [handle_command_frame]
  have c : (((0xcc % 2 ^ 8) <<< 8) + 0xde % 2 ^ 8) % 2 ^ 16 = 0xccde := by decide
  rw [c]
  simp [dispatch, h4]

/-! ## Further properties -/

/-- Status reply framing: in every state where `location_to_position100` has a
result `p`, `handle_command` on the frame `0xcc 0xcc` returns 1, sets
`*tx_bytes = 8`, writes `00 ff d8`, the battery byte, `voltage/16`, the RPM and
the position truncated to a byte and the XOR of the bytes 3 to 6, and leaves the
globals as they are. -/
theorem status_reply_framing (voltage current burstindex tx_bytes : Nat) (tx : Nat → Nat)
    (s : State) (p : ℚ) (h : location_to_position100 s = some p) :
    ∃ r, handle_command voltage current s (frame 0xcc 0xcc) tx burstindex tx_bytes = some r ∧
      r.state = s ∧ r.ret = 1 ∧ r.tx_bytes = 8 ∧
      r.tx_buffer 0 = 0x00 ∧ r.tx_buffer 1 = 0xff ∧ r.tx_buffer 2 = 0xd8 ∧
      r.tx_buffer 3 = calculate_battery ∧ r.tx_buffer 4 = (voltage / 16) % 2 ^ 8 ∧
      r.tx_buffer 5 = f2u8 (get_rpm s) % 2 ^ 8 ∧ r.tx_buffer 6 = f2u8 p % 2 ^ 8 ∧
      r.tx_buffer 7
        = (r.tx_buffer 3 ^^^ r.tx_buffer 4 ^^^ r.tx_buffer 5 ^^^ r.tx_buffer 6) % 2 ^ 8 :=
  status_reply_bytes voltage current burstindex tx_bytes tx s p h

/-- The status reply in the state left by `motor_init` and `CMD_UP`, at location
1000 of 2596, with a supply reading of 160. -/
theorem status_reply_framing_witness :
    location_to_position100 (after_command mid_state 0x0a 0xdd) = some 38 ∧
    ∃ r, handle_command 160 0 (after_command mid_state 0x0a 0xdd) (frame 0xcc 0xcc)
        (fun _ => 0) 0 0 = some r ∧
      r.state = after_command mid_state 0x0a 0xdd ∧ r.ret = 1 ∧ r.tx_bytes = 8 ∧
      r.tx_buffer 0 = 0x00 ∧ r.tx_buffer 1 = 0xff ∧ r.tx_buffer 2 = 0xd8 ∧
      r.tx_buffer 3 = calculate_battery ∧ r.tx_buffer 4 = (160 / 16) % 2 ^ 8 ∧
      r.tx_buffer 5 = f2u8 (get_rpm (after_command mid_state 0x0a 0xdd)) % 2 ^ 8 ∧
      r.tx_buffer 6 = f2u8 38 % 2 ^ 8 ∧
      r.tx_buffer 7
        = (r.tx_buffer 3 ^^^ r.tx_buffer 4 ^^^ r.tx_buffer 5 ^^^ r.tx_buffer 6) % 2 ^ 8 := by
  have e := (location_to_position100_inside (after_command mid_state 0x0a 0xdd) 1000
    (by decide) (by decide) (by decide) (by decide) (by decide)).1
  have q : (100 * 1000) % 2 ^ 32 / (after_command mid_state 0x0a 0xdd).soft_lower_limit = 38 := by
    decide
  rw [q] at e
  have e2 : location_to_position100 (after_command mid_state 0x0a 0xdd) = some 38 := by
    simpa using e
  exact ⟨e2, status_reply_framing 160 0 0 0 (fun _ => 0) _ 38 e2⟩

/-- The range of `location_to_position100` at the locations -5, 1000 and 3000 with
the soft limit 2596. -/
theorem location_to_position100_range_witness :
    (∃ p, location_to_position100 { started with location := -5 } = some p ∧ 0 ≤ p ∧ p ≤ 100 ∧
      p = 0) ∧
    (∃ p, location_to_position100 mid_state = some p ∧ 0 ≤ p ∧ p ≤ 100) ∧
    (∃ p, location_to_position100 { started with location := 3000 } = some p ∧ 0 ≤ p ∧
      p ≤ 100 ∧ p = 100) := by
  obtain ⟨p1, a1, a2, a3, a4, -⟩ := location_to_position100_range
    { started with location := -5 } (by decide) (by decide) (by decide) (by decide)
  obtain ⟨p2, b1, b2, b3, -, -⟩ := location_to_position100_range
    mid_state (by decide) (by decide) (by decide) (by decide)
  obtain ⟨p3, c1, c2, c3, -, c5⟩ := location_to_position100_range
    { started with location := 3000 } (by decide) (by decide) (by decide) (by decide)
  exact ⟨⟨p1, a1, a2, a3, a4 (by decide)⟩, ⟨p2, b1, b2, b3⟩, ⟨p3, c1, c2, c3, c5 (by decide)⟩⟩

/-- Monotonicity of `location_to_position100` at the locations 1000 and 2000 with
the soft limit 2596. -/
theorem location_to_position100_monotone_witness :
    ∃ p1 p2, location_to_position100 mid_state = some p1 ∧
      location_to_position100 { started with location := 2000 } = some p2 ∧ p1 ≤ p2 :=
  location_to_position100_monotone mid_state { started with location := 2000 }
    (by decide) (by decide) (by decide) (by decide) (by decide) (by decide) (by decide)
    (by decide)

end Fyrtur
